import Mathlib

/-
Verification of the Vulkan state-rebuild engine (stateBuilder / RebuildState and
its algorithmic subcomponents) against its natural-language specification.

The Go source is shallowly embedded: uint64 arithmetic is Nat with explicit
mod 2^64 at every operation that can wrap; Go maps iterated via Keys() are
association lists in key order; raw Go map iteration (whose order the language
leaves unspecified) is parameterised by an explicit iteration-order oracle;
fallible loops with no structural termination measure take a fuel parameter,
returning none when the fuel is exhausted while the loop condition still holds.
-/

namespace StateRebuild

/-- 2^64, the modulus of VkDeviceSize (uint64) arithmetic. -/
def U64MOD : Nat := 2 ^ 64

/-! ## Sparse Binding Reconstructor: IsFullyBound (source part_000 lines 1260-1299) -/

/-- One VkSparseMemoryBind value as stored in the bindings map
(only the fields IsFullyBound reads, plus the memory handle). -/
structure VkSparseMemoryBind where
  Size : Nat
  Memory : Nat
  MemoryOffset : Nat
deriving DecidableEq, Repr

/-- The bindings map U64:VkSparseMemoryBind, keyed by resource offset, as the
association list produced by its Keys() traversal (increasing resource offset). -/
abbrev Bindings := List (Nat × VkSparseMemoryBind)

/-- bindings.Get(resOffset).Size: size of the binding stored at a key
(zero value when the key is absent, as for a Go map read). -/
def bindSize (bindings : Bindings) (k : Nat) : Nat :=
  ((bindings.lookup k).map (fun b => b.Size)).getD 0

/-- The backward walk of IsFullyBound: from index i with current end e,
while i > 0 and end > offset, require the binding at offsets[i] to reach the
current end, then continue at the binding's own offset.  Returns none on the
early false (a gap), and the final end value at normal loop exit. -/
def coverWalk (offsets : List Nat) (sz : Nat → Nat) (offset : Nat) :
    Nat → Nat → Option Nat
  | 0, e => some e
  | i + 1, e =>
    if offset < e then
      let resOffset := offsets.getD (i + 1) 0
      if e ≤ (resOffset + sz resOffset) % U64MOD then
        coverWalk offsets sz offset i resOffset
      else
        none
    else
      some e

/-- IsFullyBound(offset, size, bindings): true when the resource range from
offset with the given size is judged fully covered by the bindings.  Mirrors
the source: find the first resource offset strictly beyond offset+size
(returning false when there is none or it is the first key), walk backwards
requiring contiguous coverage, then check the first binding when the walk
stops at index 0 above the queried offset. -/
def IsFullyBound (offset size : Nat) (bindings : Bindings) : Bool :=
  let resourceOffsets := bindings.map Prod.fst
  let reqEnd := (offset + size) % U64MOD
  match resourceOffsets.findIdx? (fun o => reqEnd < o) with
  | none => false
  | some 0 => false
  | some (i + 1) =>
    match coverWalk resourceOffsets (bindSize bindings) offset i reqEnd with
    | none => false
    | some e =>
      if e ≤ offset then
        true
      else
        match resourceOffsets with
        | [] => false
        | r0 :: _ =>
          decide (r0 ≤ offset) && decide (e ≤ (r0 + bindSize bindings r0) % U64MOD)

/-! ## Pipeline Dependency Resolver: GetPipelinesInOrder (source lines 178-224)

The pipeline table maps a pipeline handle to its base-pipeline handle
(0 = no base).  The source iterates the Go map unhandledPipelines with
for-range, whose visiting order the language leaves unspecified; the model
takes an iteration-order oracle applied before each pass (the remaining fuel
serves as the pass index).  The outer for-loop has no structural termination
measure, hence the fuel parameter: none means the loop was still running when
the fuel ran out. -/

/-- Result of one pass of the inner for-range over the unhandled map:
the accumulated output, the entries left unhandled (deleted entries are
removed from the map mid-iteration), the handled set and the counter. -/
structure ResolverState where
  pipelines : List Nat
  unhandled : List (Nat × Nat)
  handled : List Nat
  numHandled : Nat
deriving DecidableEq, Repr

/-- One pass of for k, v := range unhandledPipelines: a pipeline whose base is
zero or already handled is appended to the output, marked handled, deleted
from the map and counted; the rest stay unhandled. -/
def onePass : List (Nat × Nat) → List Nat → List Nat → Nat → ResolverState
  | [], pips, handled, n => ⟨pips, [], handled, n⟩
  | (k, v) :: rest, pips, handled, n =>
    if v = 0 ∨ v ∈ handled then
      onePass rest (pips ++ [k]) (k :: handled) (n + 1)
    else
      let st := onePass rest pips handled n
      ⟨st.pipelines, (k, v) :: st.unhandled, st.handled, st.numHandled⟩

/-- The outer loop of GetPipelinesInOrder.  numHandled is the accumulated
counter declared before the loop in the source (it is never reset between
passes); when it is 0 after a pass the remaining pipelines are appended in
map order without bases and the loop breaks. -/
def resolveLoop (order : Nat → List (Nat × Nat) → List (Nat × Nat)) :
    Nat → List (Nat × Nat) → List Nat → List Nat → Nat → Option (List Nat)
  | 0, _, _, _, _ => none
  | fuel + 1, unhandled, pips, handled, n =>
    if unhandled = [] then
      some pips
    else
      let st := onePass (order (fuel + 1) unhandled) pips handled n
      if st.numHandled = 0 then
        some (st.pipelines ++ st.unhandled.map Prod.fst)
      else
        resolveLoop order fuel st.unhandled st.pipelines st.handled st.numHandled

/-- GetPipelinesInOrder over a pipeline table (handle, basePipeline), with
an iteration-order oracle for the map passes and a fuel bound for the
unmeasured outer loop. -/
def GetPipelinesInOrder (order : Nat → List (Nat × Nat) → List (Nat × Nat))
    (fuel : Nat) (table : List (Nat × Nat)) : Option (List Nat) :=
  resolveLoop order fuel table [] [] 0

/-- The insertion-order oracle: each pass visits the unhandled entries in the
order they are listed (one admissible Go map iteration order). -/
def seqOrder : Nat → List (Nat × Nat) → List (Nat × Nat) := fun _ l => l

/-- The reversed oracle: each pass visits the unhandled entries in reverse
(another admissible Go map iteration order). -/
def revOrder : Nat → List (Nat × Nat) → List (Nat × Nat) := fun _ l => l.reverse

/-- The ordering invariant threaded through the resolver: every table entry
whose base is non-zero and whose handle has been emitted has its base emitted
earlier in the output. -/
def OrdInv (table : List (Nat × Nat)) (p : List Nat) : Prop :=
  ∀ kv ∈ table, kv.2 ≠ 0 → kv.1 ∈ p → List.Sublist [kv.2, kv.1] p

/-- The partition invariant: every pipeline handle of the table is either
already handled or still in the unhandled map. -/
def PInv (table : List (Nat × Nat)) (h : List Nat) (unh : List (Nat × Nat)) : Prop :=
  ∀ x ∈ table.map Prod.fst, x ∈ h ∨ x ∈ unh.map Prod.fst

/-! ## Object model: the slices of the captured State that the verified
functions read (handles are opaque integers; per-category tables are
association lists in Keys() order). -/

/-- One VkMemoryType entry of VkPhysicalDeviceMemoryProperties. -/
structure VkMemoryType where
  PropertyFlags : Nat
deriving DecidableEq, Repr

/-- VkPhysicalDeviceMemoryProperties (count plus the memory-type array). -/
structure MemoryProperties where
  MemoryTypeCount : Nat
  MemoryTypes : List VkMemoryType
deriving DecidableEq, Repr

/-- A physical-device object: its memory properties and its queue-family
properties table (family index to VkQueueFlags). -/
structure PhysicalDeviceObject where
  MemoryProperties : MemoryProperties
  QueueFamilyProperties : List (Nat × Nat)
deriving DecidableEq, Repr

/-- A logical-device object (handle plus owning physical device). -/
structure DeviceObject where
  VulkanHandle : Nat
  PhysicalDevice : Nat
deriving DecidableEq, Repr

/-- A queue object (handle, owning device, queue family). -/
structure QueueObject where
  VulkanHandle : Nat
  Device : Nat
  Family : Nat
deriving DecidableEq, Repr

/-- The per-category tables of the captured State read by the verified
functions.  Categories whose objects the model does not inspect are key
lists; tables whose values are read are association lists.  The pipeline
tables carry (handle, basePipeline). -/
structure VulkanState where
  Instances : List Nat := []
  PhysicalDevices : List (Nat × PhysicalDeviceObject) := []
  Surfaces : List Nat := []
  Devices : List (Nat × DeviceObject) := []
  Queues : List (Nat × QueueObject) := []
  Swapchains : List Nat := []
  DeviceMemories : List Nat := []
  Buffers : List Nat := []
  Images : List Nat := []
  Samplers : List Nat := []
  Fences : List Nat := []
  Semaphores : List Nat := []
  Events : List Nat := []
  CommandPools : List Nat := []
  PipelineCaches : List Nat := []
  DescriptorSetLayouts : List Nat := []
  PipelineLayouts : List Nat := []
  RenderPasses : List Nat := []
  ShaderModules : List Nat := []
  ComputePipelines : List (Nat × Nat) := []
  GraphicsPipelines : List (Nat × Nat) := []
  ImageViews : List Nat := []
  BufferViews : List Nat := []
  DescriptorPools : List Nat := []
  Framebuffers : List Nat := []
  DescriptorSets : List Nat := []
  QueryPools : List Nat := []
  CommandBuffers : List Nat := []
  TransferBufferMemoryRequirements : List (Nat × Nat) := []
deriving DecidableEq, Repr

/-! ## The state builder (source lines 26-36, 226-256, 337-359)

api.Cmd is modelled as its command code (the call with the numeric arguments
the claims inspect), the outcome of its Mutate step against the simulated new
state (external machinery, an oracle bit), and its read/write observation
lists holding AllocResult identifiers.  AllocResults are numbered in
allocation order by the builder's allocator. -/

/-- A diagnostic log entry: log.D, log.W, log.E. -/
inductive LogEntry where
  | debug
  | warn
  | error
deriving DecidableEq, Repr

/-- The command codes emitted by the verified builder routines.  The
…Call codes stand for calls into helper routines whose bodies are outside
the verified sources (image primer, vkCreateImage and friends,
createDeviceMemory, transitionImage); each such call is recorded as one
command at the call site. -/
inductive CmdCode where
  | vkCreateBuffer (device size usageFlags : Nat)
  | vkAllocateMemory (device allocationSize memoryTypeIndex : Nat)
  | vkBindBufferMemory (device buffer mem offset : Nat)
  | vkMapMemory (device mem offset size : Nat)
  | vkFlushMappedMemoryRanges (device mem offset size : Nat)
  | vkUnmapMemory (device mem : Nat)
  | vkDestroyBuffer (device buffer : Nat)
  | vkFreeMemory (device mem : Nat)
  | vkCreateImageCall (device image : Nat)
  | vkGetImageMemoryRequirementsCall (device image : Nat)
  | vkBindImageMemoryCall (device image mem offset : Nat)
  | vkQueueBindSparse (queue image : Nat)
  | createDeviceMemoryCall (mem : Nat) (dedicated : Bool)
  | transitionImageCall (image : Nat)
  | primeByBufferCopyCall (image : Nat) (rangeCount : Nat)
  | primeByRenderingCall (image : Nat) (rangeCount : Nat)
  | primeByImageStoreCall (image : Nat) (rangeCount : Nat)
deriving DecidableEq, Repr

/-- A command: its code, whether its Mutate step against the simulated new
state errors, and its read/write observations (AllocResult ids), including
any attached directly with AddRead/AddWrite before the write call. -/
structure Cmd where
  code : CmdCode
  mutateFails : Bool
  reads : List Nat
  writes : List Nat
deriving DecidableEq, Repr

/-- The stateBuilder: the snapshot being rebuilt from, the emitted command
list, the pending read/write allocation lists, the merged interval set, the
allocator counters (next AllocResult id and next base address of the new
address space), the chronological log of Free() calls by AllocResult id, and
the diagnostic log. -/
structure StateBuilder where
  s : VulkanState
  cmds : List Cmd
  readMemories : List Nat
  writeMemories : List Nat
  memoryIntervals : List (Nat × Nat)
  nextAlloc : Nat
  nextBase : Nat
  freedIds : List Nat
  logs : List LogEntry
deriving DecidableEq, Repr

/-- A fresh stateBuilder over a snapshot (RebuildState lines 43-50). -/
def freshBuilder (s : VulkanState) : StateBuilder :=
  ⟨s, [], [], [], [], 0, 0, [], []⟩

/-- Modelled from the spec: interval.Merge of core/math/interval is not among
the sources; per the spec, insertion into the interval set coalesces
overlapping and adjacent ranges.  Spans are (start, end) pairs kept sorted. -/
def mergeSpan : List (Nat × Nat) → Nat × Nat → List (Nat × Nat)
  | [], s => [s]
  | (a, b) :: rest, (c, d) =>
    if d < a then (c, d) :: (a, b) :: rest
    else if b < c then (a, b) :: mergeSpan rest (c, d)
    else mergeSpan rest (min a c, max b d)

/-- newState.AllocDataOrPanic: reserve sz bytes in the new address space and
hand back a fresh AllocResult id.  Does not touch the pending lists or the
interval set. -/
def allocData (sb : StateBuilder) (sz : Nat) : Nat × StateBuilder :=
  (sb.nextAlloc,
    { sb with nextAlloc := sb.nextAlloc + 1, nextBase := sb.nextBase + sz })

/-- AllocResult.Free(): record the release of an allocation. -/
def freeAlloc (sb : StateBuilder) (id : Nat) : StateBuilder :=
  { sb with freedIds := sb.freedIds ++ [id] }

/-- MustAllocReadData (lines 226-232): allocate, push onto the pending read
list, merge the allocated span into the interval set. -/
def MustAllocReadData (sb : StateBuilder) (sz : Nat) : Nat × StateBuilder :=
  let base := sb.nextBase
  let (id, sb1) := allocData sb sz
  (id, { sb1 with
          readMemories := sb1.readMemories ++ [id],
          memoryIntervals := mergeSpan sb1.memoryIntervals (base, base + sz) })

/-- MustAllocWriteData (lines 234-240): allocate, push onto the pending write
list, merge the allocated span into the interval set. -/
def MustAllocWriteData (sb : StateBuilder) (sz : Nat) : Nat × StateBuilder :=
  let base := sb.nextBase
  let (id, sb1) := allocData sb sz
  (id, { sb1 with
          writeMemories := sb1.writeMemories ++ [id],
          memoryIntervals := mergeSpan sb1.memoryIntervals (base, base + sz) })

/-- stateBuilder.write (lines 337-359): attach every pending read and write
allocation to the command as observations, run its Mutate step (logging a
warning on error, a debug line otherwise — the command is appended either
way), append the command, free every pending allocation, and reset both
pending lists. -/
def write (sb : StateBuilder) (cmd : Cmd) : StateBuilder :=
  let cmd' := { cmd with
                 reads := cmd.reads ++ sb.readMemories,
                 writes := cmd.writes ++ sb.writeMemories }
  { sb with
    cmds := sb.cmds ++ [cmd'],
    logs := sb.logs ++ [if cmd.mutateFails then LogEntry.warn else LogEntry.debug],
    freedIds := sb.freedIds ++ sb.readMemories ++ sb.writeMemories,
    readMemories := [],
    writeMemories := [] }

/-! ## Scratch Transfer Buffer Allocator (source lines 753-885) -/

/-- VK_BUFFER_USAGE_TRANSFER_SRC_BIT. -/
def VK_BUFFER_USAGE_TRANSFER_SRC_BIT : Nat := 1

/-- VK_MEMORY_PROPERTY_HOST_VISIBLE_BIT. -/
def VK_MEMORY_PROPERTY_HOST_VISIBLE_BIT : Nat := 2

/-- Marshalled byte size of VkBufferCreateInfo (the exact value is irrelevant
to the proved claims; it only feeds the interval set). -/
def bufferCreateInfoByteSize : Nat := 56

/-- Marshalled byte size of VkMemoryAllocateInfo. -/
def memoryAllocateInfoByteSize : Nat := 32

/-- Marshalled byte size of VkMappedMemoryRange. -/
def mappedMemoryRangeByteSize : Nat := 40

/-- Byte size of a Vulkan handle. -/
def handleByteSize : Nat := 8

/-- Byte size of a host pointer. -/
def pointerByteSize : Nat := 8

/-- Modelled from the spec: newUnusedID is not among the sources; per the
spec it yields an integer handle unused in the given category (the choice
strategy is immaterial to the claims proved; modelled as max + 1). -/
def newUnusedID (used : List Nat) : Nat :=
  used.foldr max 0 + 1

/-- memoryTypeIndexFor (lines 771-782): index of the first memory type
enabled in memTypeBits whose property flags contain all requested flags
(none for the source's -1). -/
def memoryTypeIndexFor (memTypeBits : Nat) (props : MemoryProperties)
    (flags : Nat) : Option Nat :=
  (List.range props.MemoryTypeCount).find? fun i =>
    decide (memTypeBits &&& (1 <<< i) ≠ 0) &&
    decide (flags = (props.MemoryTypes.getD i ⟨0⟩).PropertyFlags &&& flags)

/-- GetScratchBufferMemoryIndex (lines 753-767): take the device's memory
properties, defaulting the candidate type bits to all types (uint32
arithmetic) unless the snapshot recorded transfer-buffer memory requirements
for the device, find a host-visible type, and fall back to index 0 with a
logged error when none qualifies. -/
def GetScratchBufferMemoryIndex (sb : StateBuilder) (device : DeviceObject) :
    Nat × StateBuilder :=
  let props :=
    ((sb.s.PhysicalDevices.lookup device.PhysicalDevice).getD ⟨⟨0, []⟩, []⟩).MemoryProperties
  let typeBits :=
    match sb.s.TransferBufferMemoryRequirements.lookup device.VulkanHandle with
    | some bits => bits
    | none => ((1 <<< props.MemoryTypeCount) - 1) % 4294967296
  match memoryTypeIndexFor typeBits props VK_MEMORY_PROPERTY_HOST_VISIBLE_BIT with
  | some i => (i, sb)
  | none => (0, { sb with logs := sb.logs ++ [LogEntry.error] })

/-- allocAndFillScratchBuffer (lines 784-880): create a buffer sized to the
payload, allocate backing memory of twice the payload rounded up to a
256-byte boundary (uint64 arithmetic), bind, then stage the payload and the
mapping pointer directly with AllocDataOrPanic, map, flush, unmap, and free
the two staged allocations.  Returns the (buffer, memory) pair. -/
def allocAndFillScratchBuffer (sb : StateBuilder) (device : DeviceObject)
    (data : List Nat) (usages : List Nat) : (Nat × Nat) × StateBuilder :=
  let buffer := newUnusedID sb.s.Buffers
  let deviceMemory := newUnusedID sb.s.DeviceMemories
  let size := data.length
  let usageFlags := usages.foldl (fun a u => a ||| u) VK_BUFFER_USAGE_TRANSFER_SRC_BIT
  let (_, sb1) := MustAllocReadData sb bufferCreateInfoByteSize
  let (_, sb2) := MustAllocWriteData sb1 handleByteSize
  let sb3 := write sb2 ⟨.vkCreateBuffer device.VulkanHandle size usageFlags, false, [], []⟩
  let (memoryTypeIndex, sb4) := GetScratchBufferMemoryIndex sb3 device
  let allocSize := ((2 * size) % U64MOD + 255) % U64MOD &&& (U64MOD - 256)
  let (_, sb5) := MustAllocReadData sb4 memoryAllocateInfoByteSize
  let (_, sb6) := MustAllocWriteData sb5 handleByteSize
  let sb7 := write sb6 ⟨.vkAllocateMemory device.VulkanHandle allocSize memoryTypeIndex, false, [], []⟩
  let sb8 := write sb7 ⟨.vkBindBufferMemory device.VulkanHandle buffer deviceMemory 0, false, [], []⟩
  let (datId, sb9) := allocData sb8 size
  let (atdataId, sb10) := allocData sb9 pointerByteSize
  let sb11 := write sb10 ⟨.vkMapMemory device.VulkanHandle deviceMemory 0 size, false, [atdataId], [atdataId]⟩
  let (_, sb12) := MustAllocReadData sb11 mappedMemoryRangeByteSize
  let sb13 := write sb12 ⟨.vkFlushMappedMemoryRanges device.VulkanHandle deviceMemory 0 size, false, [datId], []⟩
  let sb14 := write sb13 ⟨.vkUnmapMemory device.VulkanHandle deviceMemory, false, [], []⟩
  let sb15 := freeAlloc sb14 datId
  let sb16 := freeAlloc sb15 atdataId
  ((buffer, deviceMemory), sb16)

/-- The allocationSize arguments of the VkAllocateMemory commands in a
command list. -/
def allocationSizes (cmds : List Cmd) : List Nat :=
  cmds.filterMap fun c =>
    match c.code with
    | .vkAllocateMemory _ a _ => some a
    | _ => none

/-- The builder operations a creation routine performs between/around its
emissions, for stating trace-level invariants about write. -/
inductive BuilderOp where
  | allocRead (sz : Nat)
  | allocWrite (sz : Nat)
  | allocRaw (sz : Nat)
  | freeRaw (id : Nat)
  | emit (cmd : Cmd)
deriving DecidableEq, Repr

/-- Run a list of builder operations. -/
def runOps (sb : StateBuilder) : List BuilderOp → StateBuilder
  | [] => sb
  | op :: rest =>
    let sb' :=
      match op with
      | .allocRead sz => (MustAllocReadData sb sz).2
      | .allocWrite sz => (MustAllocWriteData sb sz).2
      | .allocRaw sz => (allocData sb sz).2
      | .freeRaw id => freeAlloc sb id
      | .emit cmd => write sb cmd
    runOps sb' rest

/-! ## createImage and its queue selection (source lines 887-950, 1301-1527)

Helper routines whose bodies live outside the verified sources (vkCreateImage,
vkGetImageMemoryRequirements, vkBindImageMemory, the image primer) and the
in-source routines createDeviceMemory / transitionImage are recorded at call
granularity: each call appears as one command at its call site. -/

/-- VK_IMAGE_USAGE_TRANSFER_DST_BIT. -/
def VK_IMAGE_USAGE_TRANSFER_DST_BIT : Nat := 2

/-- VK_IMAGE_USAGE_COLOR_ATTACHMENT_BIT. -/
def VK_IMAGE_USAGE_COLOR_ATTACHMENT_BIT : Nat := 16

/-- VK_IMAGE_USAGE_DEPTH_STENCIL_ATTACHMENT_BIT. -/
def VK_IMAGE_USAGE_DEPTH_STENCIL_ATTACHMENT_BIT : Nat := 32

/-- VK_IMAGE_USAGE_STORAGE_BIT. -/
def VK_IMAGE_USAGE_STORAGE_BIT : Nat := 8

/-- VK_IMAGE_CREATE_SPARSE_BINDING_BIT. -/
def VK_IMAGE_CREATE_SPARSE_BINDING_BIT : Nat := 1

/-- VK_IMAGE_CREATE_SPARSE_RESIDENCY_BIT. -/
def VK_IMAGE_CREATE_SPARSE_RESIDENCY_BIT : Nat := 2

/-- VK_IMAGE_LAYOUT_UNDEFINED. -/
def VK_IMAGE_LAYOUT_UNDEFINED : Nat := 0

/-- VK_SAMPLE_COUNT_1_BIT. -/
def VK_SAMPLE_COUNT_1_BIT : Nat := 1

/-- VK_IMAGE_ASPECT_METADATA_BIT. -/
def VK_IMAGE_ASPECT_METADATA_BIT : Nat := 8

/-- VK_SPARSE_IMAGE_FORMAT_SINGLE_MIPTAIL_BIT. -/
def VK_SPARSE_IMAGE_FORMAT_SINGLE_MIPTAIL_BIT : Nat := 1

/-- VK_QUEUE_SPARSE_BINDING_BIT. -/
def VK_QUEUE_SPARSE_BINDING_BIT : Nat := 8

/-- Marshalled byte size of one VkSparseMemoryBind. -/
def sparseMemoryBindByteSize : Nat := 40

/-- Marshalled byte size of one VkSparseImageMemoryBind. -/
def sparseImageMemoryBindByteSize : Nat := 64

/-- Marshalled byte size of VkSparseImageOpaqueMemoryBindInfo. -/
def sparseImageOpaqueMemoryBindInfoByteSize : Nat := 24

/-- Marshalled byte size of VkSparseImageMemoryBindInfo. -/
def sparseImageMemoryBindInfoByteSize : Nat := 24

/-- Marshalled byte size of VkBindSparseInfo. -/
def bindSparseInfoByteSize : Nat := 96

/-- VkImageSubresourceRange. -/
structure SubresourceRange where
  aspectMask : Nat
  baseMipLevel : Nat
  levelCount : Nat
  baseArrayLayer : Nat
  layerCount : Nat
deriving DecidableEq, Repr

/-- ImageInfo: the creation parameters of an image the verified code reads
(DedicatedAllocationNV records whether the NV dedicated-allocation struct is
present). -/
structure ImageInfo where
  Usage : Nat
  Flags : Nat
  Layout : Nat
  Samples : Nat
  MipLevels : Nat
  ArrayLayers : Nat
  DedicatedAllocationNV : Bool
  QueueFamilyIndices : Option (List Nat)
deriving DecidableEq, Repr

/-- A device-memory object (the fields createImage reads from BoundMemory). -/
structure DeviceMemoryObject where
  VulkanHandle : Nat
  AllocationSize : Nat
  DedicatedAllocationNV : Bool
deriving DecidableEq, Repr

/-- VkSparseImageMemoryRequirements with its format properties flattened. -/
structure SparseMemoryRequirement where
  AspectMask : Nat
  FormatFlags : Nat
  ImageMipTailFirstLod : Nat
  ImageMipTailOffset : Nat
  ImageMipTailSize : Nat
  ImageMipTailStride : Nat
deriving DecidableEq, Repr

/-- An image object.  The nested aspect/layer/level/block structure of
SparseImageMemoryBindings is flattened to the list of its blocks' memory
handles (the only field the verified control flow reads). -/
structure ImageObject where
  VulkanHandle : Nat
  Device : Nat
  IsSwapchainImage : Bool
  Info : ImageInfo
  BoundMemory : Option DeviceMemoryObject
  BoundMemoryOffset : Nat
  OpaqueSparseMemoryBindings : Bindings
  SparseImageMemoryBindings : List Nat
  SparseMemoryRequirements : List SparseMemoryRequirement
  MemoryRequirementsSize : Nat
  LastBoundQueue : Option QueueObject
  ImageAspect : Nat
deriving DecidableEq, Repr

/-- The VkQueueFlags of a queue family, looked up through the owning device
and physical device tables (zero when absent, as for Go map/nil reads). -/
def queueFlagsOf (s : VulkanState) (dev family : Nat) : Nat :=
  let pd := ((s.Devices.lookup dev).getD ⟨0, 0⟩).PhysicalDevice
  ((((s.PhysicalDevices.lookup pd).getD ⟨⟨0, []⟩, []⟩).QueueFamilyProperties).lookup
    family).getD 0

/-- getQueueFor (lines 925-950): the last bound queue when there is one; else
the first queue of the device within the requested families; else the first
queue of the device; else nothing. -/
def getQueueFor (s : VulkanState) (lastBoundQueue : Option QueueObject)
    (device : Nat) (queueFamilyIndices : Option (List Nat)) : Option QueueObject :=
  match lastBoundQueue with
  | some q => some q
  | none =>
    let byFamily :=
      match queueFamilyIndices with
      | some idxs =>
        (s.Queues.map Prod.snd).find? fun (v : QueueObject) =>
          v.Device == device && idxs.any (fun i => i == v.Family)
      | none => none
    match byFamily with
    | some v => some v
    | none =>
      match (s.Queues.map Prod.snd).find? (fun (v : QueueObject) => v.Device == device) with
      | some v => some v
      | none => none

/-- getSparseQueueFor (lines 887-923): the last bound queue when its family
supports sparse binding; else, when the device resolves and family indices
were requested, the first sparse-capable queue of the device within them;
else the last bound queue. -/
def getSparseQueueFor (s : VulkanState) (lastBoundQueue : Option QueueObject)
    (device : Nat) (queueFamilyIndices : Option (List Nat)) : Option QueueObject :=
  let lastIsSparse :=
    match lastBoundQueue with
    | some q => queueFlagsOf s q.Device q.Family &&& VK_QUEUE_SPARSE_BINDING_BIT != 0
    | none => false
  if lastIsSparse then lastBoundQueue
  else if (s.Devices.lookup device).isNone then lastBoundQueue
  else if (s.PhysicalDevices.lookup ((s.Devices.lookup device).getD ⟨0, 0⟩).PhysicalDevice).isNone then
    lastBoundQueue
  else
    match queueFamilyIndices with
    | some idxs =>
      match (s.Queues.map Prod.snd).find? (fun (v : QueueObject) =>
          v.Device == device &&
          (queueFlagsOf s device v.Family &&& VK_QUEUE_SPARSE_BINDING_BIT != 0) &&
          idxs.any (fun i => i == v.Family)) with
      | some v => some v
      | none => lastBoundQueue
    | none => lastBoundQueue

/-- The full subresource range of an image. -/
def fullRange (img : ImageObject) : SubresourceRange :=
  ⟨img.ImageAspect, 0, img.Info.MipLevels, 0, img.Info.ArrayLayers⟩

/-- The opaque ranges collected for a sparse-resident image (lines
1434-1483): mip tails are primed only where IsFullyBound proves the bound
range complete, gated on the metadata aspect being fully bound. -/
def mipTailRanges (img : ImageObject) : List SubresourceRange :=
  let isMetadataBound := img.SparseMemoryRequirements.foldl
    (fun acc req =>
      if req.AspectMask &&& VK_IMAGE_ASPECT_METADATA_BIT ≠ 0 then
        IsFullyBound req.ImageMipTailOffset req.ImageMipTailSize
          img.OpaqueSparseMemoryBindings
      else acc)
    false
  if !isMetadataBound then []
  else
    img.SparseMemoryRequirements.foldl
      (fun acc req =>
        if req.FormatFlags &&& VK_SPARSE_IMAGE_FORMAT_SINGLE_MIPTAIL_BIT ≠ 0 then
          if IsFullyBound req.ImageMipTailOffset req.ImageMipTailSize
              img.OpaqueSparseMemoryBindings then
            acc ++ [⟨img.ImageAspect, req.ImageMipTailFirstLod,
                     img.Info.MipLevels - req.ImageMipTailFirstLod, 0,
                     img.Info.ArrayLayers⟩]
          else acc
        else
          acc ++ ((List.range img.Info.ArrayLayers).filterMap fun i =>
            let offset := (req.ImageMipTailOffset + i * req.ImageMipTailStride) % U64MOD
            if IsFullyBound offset req.ImageMipTailSize img.OpaqueSparseMemoryBindings then
              some ⟨img.ImageAspect, req.ImageMipTailFirstLod,
                    img.Info.MipLevels - req.ImageMipTailFirstLod, i, 1⟩
            else none))
      []

/-- The tail of createImage after binding (lines 1502-1527): undefined-layout
images get nothing further, multi-sampled images only a layout transition and
an error log, an image never bound to a queue logs a warning, then content is
primed by the selected strategy. -/
def imageContentTail (sb : StateBuilder) (img : ImageObject)
    (opaqueRanges : List SubresourceRange)
    (primeByBufCopy primeByRendering primeByImageStore : Bool) : StateBuilder :=
  if img.Info.Layout == VK_IMAGE_LAYOUT_UNDEFINED then sb
  else if img.Info.Samples != VK_SAMPLE_COUNT_1_BIT then
    let sb1 := write sb ⟨.transitionImageCall img.VulkanHandle, false, [], []⟩
    { sb1 with logs := sb1.logs ++ [LogEntry.error] }
  else
    let sb1 :=
      if img.LastBoundQueue.isNone then { sb with logs := sb.logs ++ [LogEntry.warn] }
      else sb
    if primeByBufCopy then
      write sb1 ⟨.primeByBufferCopyCall img.VulkanHandle opaqueRanges.length, false, [], []⟩
    else if primeByRendering then
      write sb1 ⟨.primeByRenderingCall img.VulkanHandle opaqueRanges.length, false, [], []⟩
    else if primeByImageStore then
      write sb1 ⟨.primeByImageStoreCall img.VulkanHandle opaqueRanges.length, false, [], []⟩
    else sb1

/-- createImage (lines 1301-1527).  A swapchain image returns immediately.
Otherwise: select the priming strategy from the usage bits, create the image
and query its requirements, handle NV dedicated allocations (reporting a
missing half of the dedicated-allocation info), return when neither densely
nor sparsely bound, replay sparse bindings through one VkQueueBindSparse
(creating dedicated backing memory at most once per distinct handle), or
bind dense memory, then prime content on the ranges proven fully bound. -/
def createImage (sb : StateBuilder) (img : ImageObject) : StateBuilder :=
  if img.IsSwapchainImage then sb
  else
    let primeByBufCopy := img.Info.Usage &&& VK_IMAGE_USAGE_TRANSFER_DST_BIT != 0
    let attBits := VK_IMAGE_USAGE_COLOR_ATTACHMENT_BIT ||| VK_IMAGE_USAGE_DEPTH_STENCIL_ATTACHMENT_BIT
    let primeByRendering := !primeByBufCopy && (img.Info.Usage &&& attBits != 0)
    let primeByImageStore := !primeByBufCopy && !primeByRendering &&
      (img.Info.Usage &&& VK_IMAGE_USAGE_STORAGE_BIT != 0)
    let sb1 := write sb ⟨.vkCreateImageCall img.Device img.VulkanHandle, false, [], []⟩
    let sb2 := write sb1 ⟨.vkGetImageMemoryRequirementsCall img.Device img.VulkanHandle, false, [], []⟩
    let denseBound := img.BoundMemory.isSome
    let sparseBound := !img.SparseImageMemoryBindings.isEmpty ||
      !img.OpaqueSparseMemoryBindings.isEmpty
    let sparseBinding := img.Info.Flags &&& VK_IMAGE_CREATE_SPARSE_BINDING_BIT != 0
    let sparseResidency := sparseBinding &&
      (img.Info.Flags &&& VK_IMAGE_CREATE_SPARSE_RESIDENCY_BIT != 0)
    let boundDedicated := (img.BoundMemory.map (fun m => m.DedicatedAllocationNV)).getD false
    let dedicatedMemoryNV := img.BoundMemory.isSome &&
      (img.Info.DedicatedAllocationNV || boundDedicated)
    let sb3 :=
      if dedicatedMemoryNV && !img.Info.DedicatedAllocationNV then
        { sb2 with logs := sb2.logs ++ [LogEntry.error] }
      else sb2
    let sb4 :=
      if dedicatedMemoryNV && !boundDedicated then
        { sb3 with logs := sb3.logs ++ [LogEntry.error] }
      else sb3
    let sb5 :=
      if dedicatedMemoryNV then
        write sb4 ⟨.createDeviceMemoryCall
          ((img.BoundMemory.map (fun m => m.VulkanHandle)).getD 0) true, false, [], []⟩
      else sb4
    if !denseBound && !sparseBound then sb5
    else
      let queue := getQueueFor sb5.s img.LastBoundQueue img.Device img.Info.QueueFamilyIndices
      if !img.OpaqueSparseMemoryBindings.isEmpty || !img.SparseImageMemoryBindings.isEmpty then
        match queue with
        | none => sb5
        | some _ =>
          let sparseQueue := getSparseQueueFor sb5.s img.LastBoundQueue img.Device
            img.Info.QueueFamilyIndices
          let sb6 :=
            if img.Info.DedicatedAllocationNV then
              img.SparseImageMemoryBindings.dedup.foldl
                (fun b m => write b ⟨.createDeviceMemoryCall m true, false, [], []⟩) sb5
            else sb5
          let nonSparseCount :=
            if img.Info.DedicatedAllocationNV then img.SparseImageMemoryBindings.length else 0
          let (_, sb7) := MustAllocReadData sb6
            (sparseMemoryBindByteSize * img.OpaqueSparseMemoryBindings.length)
          let (_, sb8) := MustAllocReadData sb7 sparseImageOpaqueMemoryBindInfoByteSize
          let (_, sb9) := MustAllocReadData sb8 (sparseImageMemoryBindByteSize * nonSparseCount)
          let (_, sb10) := MustAllocReadData sb9 sparseImageMemoryBindInfoByteSize
          let (_, sb11) := MustAllocReadData sb10 bindSparseInfoByteSize
          let sb12 := write sb11 ⟨.vkQueueBindSparse
            ((sparseQueue.map (fun q => q.VulkanHandle)).getD 0) img.VulkanHandle, false, [], []⟩
          let opaqueRanges :=
            if sparseResidency then mipTailRanges img
            else if IsFullyBound 0 img.MemoryRequirementsSize img.OpaqueSparseMemoryBindings then
              [fullRange img]
            else []
          imageContentTail sb12 img opaqueRanges primeByBufCopy primeByRendering primeByImageStore
      else
        match img.BoundMemory with
        | none => sb5
        | some mem =>
          let sb6 := write sb5 ⟨.vkBindImageMemoryCall img.Device img.VulkanHandle
            mem.VulkanHandle img.BoundMemoryOffset, false, [], []⟩
          imageContentTail sb6 img [fullRange img] primeByBufCopy primeByRendering
            primeByImageStore

/-! ## Object Rebuild Orchestrator: RebuildState (source lines 40-176)

RebuildState is a fixed sequence of per-category loops, each invoking that
category's creation routine on every key.  The model records one creation
event (stage, handle) per invocation; the two pipeline stages take their key
order from GetPipelinesInOrder and the command-buffer stage runs twice,
secondary level first. -/

/-- The creation stages of RebuildState, one per loop, in source order. -/
inductive Stage where
  | instances
  | physicalDevices
  | surfaces
  | devices
  | queues
  | swapchains
  | deviceMemories
  | buffers
  | images
  | samplers
  | fences
  | semaphores
  | events
  | commandPools
  | pipelineCaches
  | descriptorSetLayouts
  | pipelineLayouts
  | renderPasses
  | shaderModules
  | computePipelines
  | graphicsPipelines
  | imageViews
  | bufferViews
  | descriptorPools
  | framebuffers
  | descriptorSets
  | queryPools
  | secondaryCommandBuffers
  | primaryCommandBuffers
deriving DecidableEq, Repr

/-- The position of a stage in the fixed emission order. -/
def stageIdx : Stage → Nat
  | .instances => 0
  | .physicalDevices => 1
  | .surfaces => 2
  | .devices => 3
  | .queues => 4
  | .swapchains => 5
  | .deviceMemories => 6
  | .buffers => 7
  | .images => 8
  | .samplers => 9
  | .fences => 10
  | .semaphores => 11
  | .events => 12
  | .commandPools => 13
  | .pipelineCaches => 14
  | .descriptorSetLayouts => 15
  | .pipelineLayouts => 16
  | .renderPasses => 17
  | .shaderModules => 18
  | .computePipelines => 19
  | .graphicsPipelines => 20
  | .imageViews => 21
  | .bufferViews => 22
  | .descriptorPools => 23
  | .framebuffers => 24
  | .descriptorSets => 25
  | .queryPools => 26
  | .secondaryCommandBuffers => 27
  | .primaryCommandBuffers => 28

/-- A creation event: the stage that emitted it and the object handle. -/
abbrev REvent := Stage × Nat

/-- The per-stage key lists of one rebuild, in source order: one entry per
loop of RebuildState, with the resolved pipeline orders spliced in at the two
pipeline stages and the command buffers walked twice. -/
def stageBlocks (s : VulkanState) (cp gp : List Nat) : List (Stage × List Nat) :=
  [(.instances, s.Instances),
   (.physicalDevices, s.PhysicalDevices.map Prod.fst),
   (.surfaces, s.Surfaces),
   (.devices, s.Devices.map Prod.fst),
   (.queues, s.Queues.map Prod.fst),
   (.swapchains, s.Swapchains),
   (.deviceMemories, s.DeviceMemories),
   (.buffers, s.Buffers),
   (.images, s.Images),
   (.samplers, s.Samplers),
   (.fences, s.Fences),
   (.semaphores, s.Semaphores),
   (.events, s.Events),
   (.commandPools, s.CommandPools),
   (.pipelineCaches, s.PipelineCaches),
   (.descriptorSetLayouts, s.DescriptorSetLayouts),
   (.pipelineLayouts, s.PipelineLayouts),
   (.renderPasses, s.RenderPasses),
   (.shaderModules, s.ShaderModules),
   (.computePipelines, cp),
   (.graphicsPipelines, gp),
   (.imageViews, s.ImageViews),
   (.bufferViews, s.BufferViews),
   (.descriptorPools, s.DescriptorPools),
   (.framebuffers, s.Framebuffers),
   (.descriptorSets, s.DescriptorSets),
   (.queryPools, s.QueryPools),
   (.secondaryCommandBuffers, s.CommandBuffers),
   (.primaryCommandBuffers, s.CommandBuffers)]

/-- Flatten stage blocks into the emitted event sequence. -/
def stagedEvents (blocks : List (Stage × List Nat)) : List REvent :=
  blocks.flatMap fun b => b.2.map fun k => (b.1, k)

/-- RebuildState at creation-event granularity: resolve the two pipeline
orders (under the given map-iteration oracles and fuel), then drain every
stage in the fixed order.  none when pipeline resolution exhausts its fuel
(the source loop never exits on such tables). -/
def RebuildStateEvents (oc og : Nat → List (Nat × Nat) → List (Nat × Nat))
    (fuel : Nat) (s : VulkanState) : Option (List REvent) :=
  match GetPipelinesInOrder oc fuel s.ComputePipelines,
        GetPipelinesInOrder og fuel s.GraphicsPipelines with
  | some cp, some gp => some (stagedEvents (stageBlocks s cp gp))
  | _, _ => none

/-! ## Concrete demonstration inputs for the witnesses and counterexamples -/

/-- A snapshot with one physical device owning one host-visible memory type,
used by the scratch-allocator demonstrations. -/
def demoState : VulkanState :=
  { PhysicalDevices := [(5, ⟨⟨1, [⟨2⟩]⟩, [(0, 15)]⟩)],
    Devices := [(7, ⟨7, 5⟩)],
    Queues := [(11, ⟨11, 7, 0⟩)] }

/-- The device of demoState. -/
def demoDevice : DeviceObject := ⟨7, 5⟩

/-- A snapshot holding exactly two compute pipelines, both without a base. -/
def twoPipeState : VulkanState :=
  { ComputePipelines := [(1, 0), (2, 0)] }

/-- A small snapshot exercising three stages of the rebuild. -/
def smallState : VulkanState :=
  { Instances := [1], Buffers := [2], ComputePipelines := [(3, 0)] }

/-- The builder operations allocAndFillScratchBuffer performs on demoState
with device demoDevice and a 3-byte payload (source lines 784-880): the
create-buffer, allocate, bind, map, flush and unmap emissions with their
surrounding allocations, the two AllocDataOrPanic staging allocations (ids 4
and 5) before the map, and their releases after the unmap. -/
def scratchOpsDemo : List BuilderOp :=
  [.allocRead bufferCreateInfoByteSize,
   .allocWrite handleByteSize,
   .emit ⟨.vkCreateBuffer 7 3 1, false, [], []⟩,
   .allocRead memoryAllocateInfoByteSize,
   .allocWrite handleByteSize,
   .emit ⟨.vkAllocateMemory 7 256 0, false, [], []⟩,
   .emit ⟨.vkBindBufferMemory 7 1 1 0, false, [], []⟩,
   .allocRaw 3,
   .allocRaw pointerByteSize,
   .emit ⟨.vkMapMemory 7 1 0 3, false, [5], [5]⟩,
   .allocRead mappedMemoryRangeByteSize,
   .emit ⟨.vkFlushMappedMemoryRanges 7 1 0 3, false, [4], []⟩,
   .emit ⟨.vkUnmapMemory 7 1, false, [], []⟩,
   .freeRaw 4,
   .freeRaw 5]

/-- A swapchain image (used by the createImage frame-effect witness). -/
def demoSwapchainImage : ImageObject :=
  { VulkanHandle := 21,
    Device := 7,
    IsSwapchainImage := true,
    Info := ⟨2, 0, 1, 1, 1, 1, false, none⟩,
    BoundMemory := some ⟨9, 1024, false⟩,
    BoundMemoryOffset := 0,
    OpaqueSparseMemoryBindings := [],
    SparseImageMemoryBindings := [],
    SparseMemoryRequirements := [],
    MemoryRequirementsSize := 1024,
    LastBoundQueue := some ⟨11, 7, 0⟩,
    ImageAspect := 1 }

/-! ## Theorems -/

/-- A successful association-list lookup yields a member. -/
theorem lookup_mem {β : Type _} :
    ∀ (l : List (Nat × β)) (k : Nat) (v : β), List.lookup k l = some v → (k, v) ∈ l := by
  intro l
  induction l with
  | nil => intro k v h; exact nomatch h
  | cons a t ih =>
    intro k v h
    obtain ⟨k0, v0⟩ := a
    cases hbeq : k == k0 with
    | true =>
      have hk : k = k0 := by simpa using hbeq
      subst hk
      rw [List.lookup, hbeq] at h
      injection h with h
      subst h
      exact List.mem_cons_self _ _
    | false =>
      rw [List.lookup, hbeq] at h
      exact List.mem_cons_of_mem _ (ih k v h)

/-- A key occurring among the firsts of an association list has a successful
lookup. -/
theorem exists_lookup_of_mem_fst {β : Type _} :
    ∀ (l : List (Nat × β)) (k : Nat), k ∈ l.map Prod.fst → ∃ v, List.lookup k l = some v := by
  intro l
  induction l with
  | nil => intro k h; simp at h
  | cons a t ih =>
    intro k h
    obtain ⟨k0, v0⟩ := a
    cases hbeq : k == k0 with
    | true =>
      exact ⟨v0, by rw [List.lookup, hbeq]⟩
    | false =>
      have hk : ¬ k = k0 := by simpa using hbeq
      simp only [List.map_cons, List.mem_cons] at h
      rcases h with h | h
      · exact absurd h hk
      · obtain ⟨v, hv⟩ := ih k h
        exact ⟨v, by rw [List.lookup, hbeq]; exact hv⟩

/-- bindSize returns the Size of an actual binding for every present key. -/
theorem bindSize_spec (l : Bindings) (k : Nat) (hk : k ∈ l.map Prod.fst) :
    ∃ v, (k, v) ∈ l ∧ bindSize l k = v.Size := by
  obtain ⟨v, hv⟩ := exists_lookup_of_mem_fst l k hk
  exact ⟨v, lookup_mem l k v hv, by simp [bindSize, hv]⟩

/-- A normal exit of the backward walk proves coverage of every byte between
the final and the initial end value. -/
theorem coverWalk_covers (bindings : Bindings) (offset : Nat) :
    ∀ (i : Nat) (e e' : Nat),
      i < (bindings.map Prod.fst).length →
      coverWalk (bindings.map Prod.fst) (bindSize bindings) offset i e = some e' →
      ∀ b, e' ≤ b → b < e → ∃ kv ∈ bindings, kv.1 ≤ b ∧ b < kv.1 + kv.2.Size := by
  intro i
  induction i with
  | zero =>
    intro e e' _ hw b hb1 hb2
    rw [coverWalk] at hw
    injection hw with hw
    omega
  | succ i ih =>
    intro e e' hlen hw b hb1 hb2
    rw [coverWalk] at hw
    by_cases ho : offset < e
    · rw [if_pos ho] at hw
      by_cases hc : e ≤ ((bindings.map Prod.fst).getD (i + 1) 0 +
          bindSize bindings ((bindings.map Prod.fst).getD (i + 1) 0)) % U64MOD
      · rw [if_pos hc] at hw
        by_cases hbr : b < (bindings.map Prod.fst).getD (i + 1) 0
        · exact ih ((bindings.map Prod.fst).getD (i + 1) 0) e' (by omega) hw b hb1 hbr
        · have hrmem : (bindings.map Prod.fst).getD (i + 1) 0 ∈ bindings.map Prod.fst := by
            rw [List.getD_eq_getElem?_getD, List.getElem?_eq_getElem hlen]
            exact List.getElem_mem hlen
          obtain ⟨v, hv, hsz⟩ := bindSize_spec bindings _ hrmem
          refine ⟨((bindings.map Prod.fst).getD (i + 1) 0, v), hv,
            Nat.le_of_not_lt hbr, ?_⟩
          have hle : ((bindings.map Prod.fst).getD (i + 1) 0 +
              bindSize bindings ((bindings.map Prod.fst).getD (i + 1) 0)) % U64MOD ≤
              (bindings.map Prod.fst).getD (i + 1) 0 +
              bindSize bindings ((bindings.map Prod.fst).getD (i + 1) 0) :=
            Nat.mod_le _ _
          show b < (bindings.map Prod.fst).getD (i + 1) 0 + v.Size
          omega
      · rw [if_neg hc] at hw
        exact absurd hw (by simp)
    · rw [if_neg ho] at hw
      simp at hw
      omega

/-- A true result of IsFullyBound proves every byte of the queried range is
covered by some binding (no gap), provided the queried end does not wrap. -/
theorem isFullyBound_true_covers (offset size : Nat) (bindings : Bindings)
    (h64 : offset + size < U64MOD)
    (h : IsFullyBound offset size bindings = true) :
    ∀ b, offset ≤ b → b < offset + size →
      ∃ kv ∈ bindings, kv.1 ≤ b ∧ b < kv.1 + kv.2.Size := by
  intro b hb1 hb2
  have hmod : (offset + size) % U64MOD = offset + size := Nat.mod_eq_of_lt h64
  unfold IsFullyBound at h
  rw [hmod] at h
  simp only [] at h
  split at h
  · exact absurd h (by simp)
  · exact absurd h (by simp)
  · rename_i i hfind
    split at h
    · exact absurd h (by simp)
    · rename_i e hwalk
      have hilen : i < (bindings.map Prod.fst).length := by
        rcases List.findIdx?_eq_some_iff_getElem.mp hfind with ⟨hlt, _, _⟩
        omega
      split at h
      · rename_i he
        exact coverWalk_covers bindings offset i (offset + size) e hilen hwalk b
          (by omega) hb2
      · rename_i he
        split at h
        · exact absurd h (by simp)
        · rename_i r0 rest hoffs
          simp only [Bool.and_eq_true, decide_eq_true_eq] at h
          obtain ⟨h1, h2⟩ := h
          by_cases hbe : b < e
          · have hr0mem : r0 ∈ bindings.map Prod.fst := by
              rw [hoffs]; exact List.mem_cons_self _ _
            obtain ⟨v, hv, hsz⟩ := bindSize_spec bindings r0 hr0mem
            refine ⟨(r0, v), hv, by omega, ?_⟩
            have hle : (r0 + bindSize bindings r0) % U64MOD ≤ r0 + bindSize bindings r0 :=
              Nat.mod_le _ _
            show b < r0 + v.Size
            omega
          · exact coverWalk_covers bindings offset i (offset + size) e hilen hwalk b
              (by omega) hb2

/-- C3: IsFullyBound(offset, size, bindings) returns false on an empty
binding map, returns false whenever some byte of the queried range
[offset, offset+size) is covered by no binding span, and returns false
whenever no binding's resource offset lies strictly beyond offset+size. -/
theorem isFullyBound_false_conditions (offset size : Nat) (bindings : Bindings) :
    (bindings = [] → IsFullyBound offset size bindings = false) ∧
    (∀ b, offset + size < U64MOD → offset ≤ b → b < offset + size →
      (∀ kv ∈ bindings, ¬(kv.1 ≤ b ∧ b < kv.1 + kv.2.Size)) →
      IsFullyBound offset size bindings = false) ∧
    ((∀ kv ∈ bindings, kv.1 ≤ (offset + size) % U64MOD) →
      IsFullyBound offset size bindings = false) := by
  refine ⟨?_, ?_, ?_⟩
  · intro h
    subst h
    rfl
  · intro b h64 hb1 hb2 hunc
    cases hF : IsFullyBound offset size bindings with
    | false => rfl
    | true =>
      obtain ⟨kv, hkv, hc1, hc2⟩ := isFullyBound_true_covers offset size bindings h64 hF b hb1 hb2
      exact absurd ⟨hc1, hc2⟩ (hunc kv hkv)
  · intro hall
    have hnone : List.findIdx? (fun o => decide ((offset + size) % U64MOD < o))
        (bindings.map Prod.fst) = none := by
      rw [List.findIdx?_eq_none_iff]
      intro x hx
      obtain ⟨kv, hkv, hfst⟩ := List.mem_map.mp hx
      subst hfst
      simpa using Nat.not_lt.mpr (hall kv hkv)
    simp [IsFullyBound, hnone]

/-- C3 witness: concrete applications — an empty map, a map with the gap
[5,10) inside the queried range [0,20), and a map whose only offset does not
lie strictly beyond the queried end. -/
theorem isFullyBound_false_conditions_witness :
    IsFullyBound 3 17 [] = false ∧
    IsFullyBound 0 20 [(0, ⟨5, 0, 0⟩), (10, ⟨10, 0, 0⟩), (30, ⟨1, 0, 0⟩)] = false ∧
    IsFullyBound 0 20 [(0, ⟨21, 0, 0⟩)] = false :=
  ⟨(isFullyBound_false_conditions 3 17 []).1 rfl,
   (isFullyBound_false_conditions 0 20 [(0, ⟨5, 0, 0⟩), (10, ⟨10, 0, 0⟩), (30, ⟨1, 0, 0⟩)]).2.1
      7 (by norm_num [U64MOD]) (by norm_num) (by norm_num) (by decide),
   (isFullyBound_false_conditions 0 20 [(0, ⟨21, 0, 0⟩)]).2.2 (by decide)⟩

/-- C1: evaluating IsFullyBound at the specification's test inputs.  With the
bindings {0 ↦ size 10, 10 ↦ size 10} — spans [0,10) and [10,20) fully
covering the queried range [0,20) — the function returns false, because no
binding's resource offset is strictly greater than 20, contradicting both the
claim and the function's own doc comment; with {0 ↦ size 5, 10 ↦ size 10} it
also returns false. -/
theorem isFullyBound_spec_case_eval :
    IsFullyBound 0 20 [(0, ⟨10, 0, 0⟩), (10, ⟨10, 0, 0⟩)] = false ∧
    IsFullyBound 0 20 [(0, ⟨5, 0, 0⟩), (10, ⟨10, 0, 0⟩)] = false :=
  ⟨by decide, by decide⟩

/-- onePass only appends to the output. -/
theorem onePass_pipelines_extend :
    ∀ (l : List (Nat × Nat)) (p h : List Nat) (n : Nat),
      ∃ t, (onePass l p h n).pipelines = p ++ t := by
  intro l
  induction l with
  | nil => intro p h n; exact ⟨[], by simp [onePass]⟩
  | cons a rest ih =>
    intro p h n
    obtain ⟨k, v⟩ := a
    rw [onePass]
    by_cases hc : v = 0 ∨ v ∈ h
    · rw [if_pos hc]
      obtain ⟨t, ht⟩ := ih (p ++ [k]) (k :: h) (n + 1)
      exact ⟨[k] ++ t, by rw [ht, List.append_assoc]⟩
    · rw [if_neg hc]
      exact ih p h n

/-- onePass never removes anything from the handled set. -/
theorem onePass_handled_mono :
    ∀ (l : List (Nat × Nat)) (p h : List Nat) (n : Nat) (x : Nat),
      x ∈ h → x ∈ (onePass l p h n).handled := by
  intro l
  induction l with
  | nil => intro p h n x hx; simpa [onePass] using hx
  | cons a rest ih =>
    intro p h n x hx
    obtain ⟨k, v⟩ := a
    rw [onePass]
    by_cases hc : v = 0 ∨ v ∈ h
    · rw [if_pos hc]
      exact ih (p ++ [k]) (k :: h) (n + 1) x (List.mem_cons_of_mem _ hx)
    · rw [if_neg hc]
      exact ih p h n x hx

/-- Every handled pipeline is in the output, provided that held beforehand. -/
theorem onePass_handled_in_pipelines :
    ∀ (l : List (Nat × Nat)) (p h : List Nat) (n : Nat),
      (∀ x ∈ h, x ∈ p) →
      ∀ x ∈ (onePass l p h n).handled, x ∈ (onePass l p h n).pipelines := by
  intro l
  induction l with
  | nil => intro p h n hin x hx; exact hin x hx
  | cons a rest ih =>
    intro p h n hin x hx
    obtain ⟨k, v⟩ := a
    rw [onePass] at hx ⊢
    by_cases hc : v = 0 ∨ v ∈ h
    · rw [if_pos hc] at hx ⊢
      refine ih (p ++ [k]) (k :: h) (n + 1) ?_ x hx
      intro y hy
      rcases List.mem_cons.mp hy with hy | hy
      · subst hy; exact List.mem_append_right _ (List.mem_cons_self _ _)
      · exact List.mem_append_left _ (hin y hy)
    · rw [if_neg hc] at hx ⊢
      exact ih p h n hin x hx

/-- The entries left unhandled by a pass come from its input. -/
theorem onePass_unhandled_subset :
    ∀ (l : List (Nat × Nat)) (p h : List Nat) (n : Nat) (kv : Nat × Nat),
      kv ∈ (onePass l p h n).unhandled → kv ∈ l := by
  intro l
  induction l with
  | nil => intro p h n kv hkv; simp [onePass] at hkv
  | cons a rest ih =>
    intro p h n kv hkv
    obtain ⟨k, v⟩ := a
    rw [onePass] at hkv
    by_cases hc : v = 0 ∨ v ∈ h
    · rw [if_pos hc] at hkv
      exact List.mem_cons_of_mem _ (ih _ _ _ kv hkv)
    · rw [if_neg hc] at hkv
      rcases List.mem_cons.mp hkv with hkv | hkv
      · exact hkv ▸ List.mem_cons_self _ _
      · exact List.mem_cons_of_mem _ (ih _ _ _ kv hkv)

/-- Counter bookkeeping of a pass: handled plus left-over equals input plus
the carried counter. -/
theorem onePass_count :
    ∀ (l : List (Nat × Nat)) (p h : List Nat) (n : Nat),
      (onePass l p h n).numHandled + (onePass l p h n).unhandled.length
        = n + l.length := by
  intro l
  induction l with
  | nil => intro p h n; simp [onePass]
  | cons a rest ih =>
    intro p h n
    obtain ⟨k, v⟩ := a
    rw [onePass]
    by_cases hc : v = 0 ∨ v ∈ h
    · rw [if_pos hc]
      have := ih (p ++ [k]) (k :: h) (n + 1)
      simpa [Nat.add_comm, Nat.add_assoc, Nat.add_left_comm] using this
    · rw [if_neg hc]
      have := ih p h n
      simp only [List.length_cons]
      omega

/-- The counter never decreases across a pass. -/
theorem onePass_num_mono :
    ∀ (l : List (Nat × Nat)) (p h : List Nat) (n : Nat),
      n ≤ (onePass l p h n).numHandled := by
  intro l
  induction l with
  | nil => intro p h n; simp [onePass]
  | cons a rest ih =>
    intro p h n
    obtain ⟨k, v⟩ := a
    rw [onePass]
    by_cases hc : v = 0 ∨ v ∈ h
    · rw [if_pos hc]
      exact Nat.le_trans (Nat.le_succ n) (ih (p ++ [k]) (k :: h) (n + 1))
    · rw [if_neg hc]
      exact ih p h n

/-- A pass containing an entry whose base is zero or already handled makes
progress: the left-over shrinks strictly. -/
theorem onePass_progress :
    ∀ (l : List (Nat × Nat)) (p h : List Nat) (n : Nat) (k v : Nat),
      (k, v) ∈ l → (v = 0 ∨ v ∈ h) →
      (onePass l p h n).unhandled.length < l.length := by
  intro l
  induction l with
  | nil => intro p h n k v hkv; simp at hkv
  | cons a rest ih =>
    intro p h n k v hkv hv
    obtain ⟨k0, v0⟩ := a
    rw [onePass]
    by_cases hc : v0 = 0 ∨ v0 ∈ h
    · rw [if_pos hc]
      have hcount := onePass_count rest (p ++ [k0]) (k0 :: h) (n + 1)
      have hmono := onePass_num_mono rest (p ++ [k0]) (k0 :: h) (n + 1)
      simp only [List.length_cons]
      omega
    · rw [if_neg hc]
      rcases List.mem_cons.mp hkv with hkv | hkv
      · exfalso
        injection hkv with h1 h2
        exact hc (h2 ▸ hv)
      · have := ih p h n k v hkv hv
        simp only [List.length_cons]
        omega

/-- Every input key of a pass ends up handled or left unhandled. -/
theorem onePass_key_cases :
    ∀ (l : List (Nat × Nat)) (p h : List Nat) (n : Nat) (x : Nat),
      x ∈ l.map Prod.fst →
      x ∈ (onePass l p h n).handled ∨ x ∈ (onePass l p h n).unhandled.map Prod.fst := by
  intro l
  induction l with
  | nil => intro p h n x hx; simp at hx
  | cons a rest ih =>
    intro p h n x hx
    obtain ⟨k, v⟩ := a
    rw [onePass]
    by_cases hc : v = 0 ∨ v ∈ h
    · rw [if_pos hc]
      rcases List.mem_cons.mp hx with hx | hx
      · exact Or.inl (onePass_handled_mono rest (p ++ [k]) (k :: h) (n + 1) x
          (hx ▸ List.mem_cons_self _ _))
      · exact ih (p ++ [k]) (k :: h) (n + 1) x hx
    · rw [if_neg hc]
      rcases List.mem_cons.mp hx with hx | hx
      · exact Or.inr (by simp [hx])
      · rcases ih p h n x hx with hh | hh
        · exact Or.inl hh
        · exact Or.inr (by simp [hh])

/-- Keys of an association list with nodup keys determine their values. -/
theorem nodup_keys_eq :
    ∀ (l : List (Nat × Nat)), (l.map Prod.fst).Nodup →
      ∀ (k a b : Nat), (k, a) ∈ l → (k, b) ∈ l → a = b := by
  intro l
  induction l with
  | nil => intro _ k a b ha; simp at ha
  | cons x rest ih =>
    intro hnd k a b ha hb
    obtain ⟨k0, v0⟩ := x
    simp only [List.map_cons, List.nodup_cons] at hnd
    rcases List.mem_cons.mp ha with ha1 | ha2
    · rcases List.mem_cons.mp hb with hb1 | hb2
      · injection ha1 with e1 e2
        injection hb1 with f1 f2
        rw [e2, f2]
      · exfalso
        injection ha1 with e1 e2
        subst e1
        exact hnd.1 (List.mem_map.mpr ⟨(k, b), hb2, rfl⟩)
    · rcases List.mem_cons.mp hb with hb1 | hb2
      · exfalso
        injection hb1 with f1 f2
        subst f1
        exact hnd.1 (List.mem_map.mpr ⟨(k, a), ha2, rfl⟩)
      · exact ih hnd.2 k a b ha2 hb2

/-- A pass preserves the base-before-derived ordering invariant. -/
theorem onePass_ordinv (table : List (Nat × Nat))
    (hnodup : (table.map Prod.fst).Nodup) :
    ∀ (l : List (Nat × Nat)) (p h : List Nat) (n : Nat),
      (∀ kv ∈ l, kv ∈ table) →
      (∀ x ∈ h, x ∈ p) →
      OrdInv table p →
      OrdInv table (onePass l p h n).pipelines := by
  intro l
  induction l with
  | nil => intro p h n _ _ hord; simpa [onePass] using hord
  | cons a rest ih =>
    intro p h n hsub hin hord
    obtain ⟨k, v⟩ := a
    rw [onePass]
    by_cases hc : v = 0 ∨ v ∈ h
    · rw [if_pos hc]
      have hknew : OrdInv table (p ++ [k]) := by
        intro kv hkv hnz hmem
        rcases List.mem_append.mp hmem with hmem | hmem
        · exact (hord kv hkv hnz hmem).trans (List.sublist_append_left p [k])
        · have hk : kv.1 = k := by simpa using hmem
          have hkv' : (k, v) ∈ table := hsub (k, v) (List.mem_cons_self _ _)
          have hveq : kv.2 = v := by
            have : (kv.1, kv.2) ∈ table := by simpa using hkv
            rw [hk] at this
            exact nodup_keys_eq table hnodup k kv.2 v this hkv'
          have hvh : v ∈ h := by
            rcases hc with hc | hc
            · exact absurd (hveq.trans hc) hnz
            · exact hc
          have hvp : v ∈ p := hin v hvh
          have : List.Sublist [kv.2] p := List.singleton_sublist.mpr (hveq ▸ hvp)
          have hs : List.Sublist ([kv.2] ++ [kv.1]) (p ++ [k]) :=
            List.Sublist.append this (by simp [hk])
          simpa using hs
      refine ih (p ++ [k]) (k :: h) (n + 1) (fun kv hkv => hsub kv (List.mem_cons_of_mem _ hkv)) ?_ hknew
      intro y hy
      rcases List.mem_cons.mp hy with hy | hy
      · subst hy; exact List.mem_append_right _ (List.mem_cons_self _ _)
      · exact List.mem_append_left _ (hin y hy)
    · rw [if_neg hc]
      exact ih p h n (fun kv hkv => hsub kv (List.mem_cons_of_mem _ hkv)) hin hord

/-- A nonempty list has an entry whose key minimises any rank function. -/
theorem exists_min_rank :
    ∀ (l : List (Nat × Nat)) (rank : Nat → Nat), l ≠ [] →
      ∃ kv ∈ l, ∀ kv' ∈ l, rank kv.1 ≤ rank kv'.1 := by
  intro l
  induction l with
  | nil => intro rank h; exact absurd rfl h
  | cons a rest ih =>
    intro rank _
    by_cases hr : rest = []
    · subst hr
      exact ⟨a, List.mem_cons_self _ _, by
        intro kv' hkv'
        have : kv' = a := by simpa using hkv'
        simp [this]⟩
    · obtain ⟨m, hm, hmin⟩ := ih rank hr
      by_cases hcmp : rank a.1 ≤ rank m.1
      · refine ⟨a, List.mem_cons_self _ _, ?_⟩
        intro kv' hkv'
        rcases List.mem_cons.mp hkv' with h | h
        · simp [h]
        · exact Nat.le_trans hcmp (hmin kv' h)
      · refine ⟨m, List.mem_cons_of_mem _ hm, ?_⟩
        intro kv' hkv'
        rcases List.mem_cons.mp hkv' with h | h
        · exact h ▸ Nat.le_of_lt (Nat.lt_of_not_le hcmp)
        · exact hmin kv' h

/-- In a pass over unhandled entries of a table whose base references are
rank-decreasing and in the table, some entry is resolvable. -/
theorem pass_exists_progress (table : List (Nat × Nat)) (rank : Nat → Nat)
    (hb : ∀ kv ∈ table, kv.2 ≠ 0 → kv.2 ∈ table.map Prod.fst ∧ rank kv.2 < rank kv.1) :
    ∀ (l : List (Nat × Nat)) (h : List Nat), l ≠ [] →
      (∀ kv ∈ l, kv ∈ table) →
      (∀ x ∈ table.map Prod.fst, x ∈ h ∨ x ∈ l.map Prod.fst) →
      ∃ k v, (k, v) ∈ l ∧ (v = 0 ∨ v ∈ h) := by
  intro l h hne hsub hpinv
  obtain ⟨⟨k, v⟩, hkv, hmin⟩ := exists_min_rank l rank hne
  by_cases hv : v = 0
  · exact ⟨k, v, hkv, Or.inl hv⟩
  · have hkey := hb (k, v) (hsub _ hkv) hv
    rcases hpinv v hkey.1 with hvh | hvl
    · exact ⟨k, v, hkv, Or.inr hvh⟩
    · exfalso
      obtain ⟨⟨v', w⟩, hw, hfst⟩ := List.mem_map.mp hvl
      have hwmin := hmin (v', w) hw
      simp only at hfst
      subst hfst
      exact absurd hkey.2 (Nat.not_lt.mpr hwmin)

/-- The resolver loop terminates and honours every base when the base
references are rank-decreasing and contained in the table: the invariants are
threaded through each pass, and every pass strictly shrinks the unhandled
set, so the stall branch is never taken. -/
theorem resolveLoop_resolves (order : Nat → List (Nat × Nat) → List (Nat × Nat))
    (table : List (Nat × Nat)) (rank : Nat → Nat)
    (horder : ∀ t l, List.Perm (order t l) l)
    (hnodup : (table.map Prod.fst).Nodup)
    (hb : ∀ kv ∈ table, kv.2 ≠ 0 → kv.2 ∈ table.map Prod.fst ∧ rank kv.2 < rank kv.1) :
    ∀ (fuel : Nat) (unh : List (Nat × Nat)) (p h : List Nat) (n : Nat),
      (∀ kv ∈ unh, kv ∈ table) →
      (∀ x ∈ h, x ∈ p) →
      OrdInv table p →
      PInv table h unh →
      unh.length < fuel →
      ∃ r, resolveLoop order fuel unh p h n = some r ∧ OrdInv table r ∧
        (∀ x, x ∈ h ∨ x ∈ unh.map Prod.fst → x ∈ r) := by
  intro fuel
  induction fuel with
  | zero => intro unh p h n _ _ _ _ hlen; omega
  | succ fuel ih =>
    intro unh p h n hsub hin hord hpinv hlen
    by_cases hne : unh = []
    · subst hne
      refine ⟨p, by rw [resolveLoop, if_pos rfl], hord, ?_⟩
      intro x hx
      rcases hx with hx | hx
      · exact hin x hx
      · simp at hx
    · have hperm : List.Perm (order (fuel + 1) unh) unh := horder (fuel + 1) unh
      have hlsub : ∀ kv ∈ order (fuel + 1) unh, kv ∈ table :=
        fun kv hkv => hsub kv (hperm.mem_iff.mp hkv)
      have hlne : order (fuel + 1) unh ≠ [] :=
        fun hnil => hne ((hnil ▸ hperm).symm.eq_nil)
      have hkeys : ∀ x, x ∈ (order (fuel + 1) unh).map Prod.fst ↔ x ∈ unh.map Prod.fst :=
        fun x => (hperm.map Prod.fst).mem_iff
      have hpinvl : ∀ x ∈ table.map Prod.fst, x ∈ h ∨ x ∈ (order (fuel + 1) unh).map Prod.fst := by
        intro x hx
        rcases hpinv x hx with hx' | hx'
        · exact Or.inl hx'
        · exact Or.inr ((hkeys x).mpr hx')
      obtain ⟨k, v, hkvl, hkv_cond⟩ :=
        pass_exists_progress table rank hb (order (fuel + 1) unh) h hlne hlsub hpinvl
      have hprog := onePass_progress (order (fuel + 1) unh) p h n k v hkvl hkv_cond
      have hnum : (onePass (order (fuel + 1) unh) p h n).numHandled ≠ 0 := by
        have hcount := onePass_count (order (fuel + 1) unh) p h n
        have hmono := onePass_num_mono (order (fuel + 1) unh) p h n
        omega
      have hstep : resolveLoop order (fuel + 1) unh p h n =
          resolveLoop order fuel (onePass (order (fuel + 1) unh) p h n).unhandled
            (onePass (order (fuel + 1) unh) p h n).pipelines
            (onePass (order (fuel + 1) unh) p h n).handled
            (onePass (order (fuel + 1) unh) p h n).numHandled := by
        rw [resolveLoop, if_neg hne]
        simp only []
        rw [if_neg hnum]
      obtain ⟨r, heq, hordr, hmemr⟩ :=
        ih (onePass (order (fuel + 1) unh) p h n).unhandled
          (onePass (order (fuel + 1) unh) p h n).pipelines
          (onePass (order (fuel + 1) unh) p h n).handled
          (onePass (order (fuel + 1) unh) p h n).numHandled
          (fun kv hkv => hlsub kv (onePass_unhandled_subset _ _ _ _ kv hkv))
          (onePass_handled_in_pipelines _ p h n hin)
          (onePass_ordinv table hnodup _ p h n hlsub hin hord)
          (by
            intro x hx
            rcases hpinvl x hx with hx' | hx'
            · exact Or.inl (onePass_handled_mono _ p h n x hx')
            · exact onePass_key_cases _ p h n x hx')
          (by
            have hlength : (order (fuel + 1) unh).length = unh.length := hperm.length_eq
            omega)
      refine ⟨r, hstep.trans heq, hordr, ?_⟩
      intro x hx
      apply hmemr
      rcases hx with hx | hx
      · exact Or.inl (onePass_handled_mono _ p h n x hx)
      · rcases onePass_key_cases _ p h n x ((hkeys x).mpr hx) with hh | hh
        · exact Or.inl hh
        · exact Or.inr hh

/-- C5: for every pipeline table whose base references are acyclic (witnessed
by a rank function decreasing from derived to base) and contained in the
table, GetPipelinesInOrder terminates within table.length + 1 passes under
any map-iteration order and emits every pipeline with a non-zero base after
its base pipeline. -/
theorem getPipelinesInOrder_base_before_derived
    (order : Nat → List (Nat × Nat) → List (Nat × Nat))
    (table : List (Nat × Nat)) (rank : Nat → Nat)
    (horder : ∀ t l, List.Perm (order t l) l)
    (hnodup : (table.map Prod.fst).Nodup)
    (hb : ∀ kv ∈ table, kv.2 ≠ 0 → kv.2 ∈ table.map Prod.fst ∧ rank kv.2 < rank kv.1) :
    ∃ r, GetPipelinesInOrder order (table.length + 1) table = some r ∧
      ∀ kv ∈ table, kv.2 ≠ 0 → List.Sublist [kv.2, kv.1] r := by
  obtain ⟨r, heq, hord, hmem⟩ :=
    resolveLoop_resolves order table rank horder hnodup hb (table.length + 1) table [] [] 0
      (fun kv h => h)
      (by intro x hx; simp at hx)
      (by intro kv _ _ hmem; simp at hmem)
      (fun x hx => Or.inr hx)
      (Nat.lt_succ_self _)
  exact ⟨r, heq, fun kv hkv hnz =>
    hord kv hkv hnz (hmem kv.1 (Or.inr (List.mem_map.mpr ⟨kv, hkv, rfl⟩)))⟩

/-- C5 witness: the chain A(1, base 0), B(2, base A), C(3, base B) resolves
and honours both bases. -/
theorem getPipelinesInOrder_base_before_derived_witness :
    ∃ r, GetPipelinesInOrder seqOrder 4 [(1, 0), (2, 1), (3, 2)] = some r ∧
      ∀ kv ∈ [(1, 0), (2, 1), (3, 2)], kv.2 ≠ 0 → List.Sublist [kv.2, kv.1] r :=
  getPipelinesInOrder_base_before_derived seqOrder [(1, 0), (2, 1), (3, 2)] id
    (fun t l => List.Perm.refl l) (by decide) (by decide)

/-- Once a pass has handled at least one pipeline while a pure cycle remains,
the loop state reproduces itself forever: the accumulated numHandled counter
is non-zero, hence the stall branch never fires, and the cycle members are
never handled. -/
theorem resolveLoop_stalls_aux :
    ∀ fuel, resolveLoop seqOrder fuel [(2, 3), (3, 2)] [1] [1] 1 = none := by
  intro fuel
  induction fuel with
  | zero => rfl
  | succ n ih =>
    have hstep : resolveLoop seqOrder (n + 1) [(2, 3), (3, 2)] [1] [1] 1 =
        resolveLoop seqOrder n [(2, 3), (3, 2)] [1] [1] 1 := rfl
    rw [hstep]
    exact ih

/-- C2: on the table {1 ↦ base 0, 2 ↦ base 3, 3 ↦ base 2} — one resolvable
pipeline mixed with a two-element base cycle — GetPipelinesInOrder never
terminates: pipeline 1 is resolved in the first pass, so the numHandled
counter (declared outside the outer loop and never reset) stays positive, the
stall check never fires, and the loop re-runs forever on the cycle {2, 3};
the result is none for every fuel bound. -/
theorem getPipelinesInOrder_mixed_cycle_diverges :
    ∀ fuel, GetPipelinesInOrder seqOrder fuel [(1, 0), (2, 3), (3, 2)] = none := by
  intro fuel
  cases fuel with
  | zero => rfl
  | succ n =>
    have hstep : GetPipelinesInOrder seqOrder (n + 1) [(1, 0), (2, 3), (3, 2)] =
        resolveLoop seqOrder n [(2, 3), (3, 2)] [1] [1] 1 := rfl
    rw [hstep]
    exact resolveLoop_stalls_aux n

/-- A pass preserves the multiset of output plus unhandled keys. -/
theorem onePass_keys_perm :
    ∀ (l : List (Nat × Nat)) (p h : List Nat) (n : Nat),
      List.Perm
        ((onePass l p h n).pipelines ++ (onePass l p h n).unhandled.map Prod.fst)
        (p ++ l.map Prod.fst) := by
  intro l
  induction l with
  | nil => intro p h n; simp [onePass]
  | cons a rest ih =>
    intro p h n
    obtain ⟨k, v⟩ := a
    rw [onePass]
    by_cases hc : v = 0 ∨ v ∈ h
    · rw [if_pos hc]
      refine (ih (p ++ [k]) (k :: h) (n + 1)).trans ?_
      rw [List.append_assoc]
      exact List.Perm.refl _
    · rw [if_neg hc]
      simp only [List.map_cons]
      exact (List.perm_middle).trans
        ((List.Perm.cons k (ih p h n)).trans List.perm_middle.symm)

/-- Whatever the iteration orders, a terminating run of the resolver loop
produces a permutation of the accumulated output plus the unhandled keys. -/
theorem resolveLoop_perm (order : Nat → List (Nat × Nat) → List (Nat × Nat))
    (horder : ∀ t l, List.Perm (order t l) l) :
    ∀ (fuel : Nat) (unh : List (Nat × Nat)) (p h : List Nat) (n : Nat) (r : List Nat),
      resolveLoop order fuel unh p h n = some r →
      List.Perm r (p ++ unh.map Prod.fst) := by
  intro fuel
  induction fuel with
  | zero => intro unh p h n r hr; exact absurd hr (by rw [resolveLoop]; simp)
  | succ fuel ih =>
    intro unh p h n r hr
    rw [resolveLoop] at hr
    by_cases hne : unh = []
    · rw [if_pos hne] at hr
      injection hr with hr
      subst hr
      subst hne
      simp
    · rw [if_neg hne] at hr
      simp only [] at hr
      by_cases hnum : (onePass (order (fuel + 1) unh) p h n).numHandled = 0
      · rw [if_pos hnum] at hr
        injection hr with hr
        subst hr
        exact (onePass_keys_perm (order (fuel + 1) unh) p h n).trans
          (List.Perm.append_left p ((horder (fuel + 1) unh).map Prod.fst))
      · rw [if_neg hnum] at hr
        exact (ih _ _ _ _ r hr).trans
          ((onePass_keys_perm (order (fuel + 1) unh) p h n).trans
            (List.Perm.append_left p ((horder (fuel + 1) unh).map Prod.fst)))

/-- A terminating run of GetPipelinesInOrder emits a permutation of the table
keys — every pipeline exactly as often as it is keyed, under any iteration
order. -/
theorem getPipelinesInOrder_perm (order : Nat → List (Nat × Nat) → List (Nat × Nat))
    (horder : ∀ t l, List.Perm (order t l) l)
    (fuel : Nat) (table : List (Nat × Nat)) (r : List Nat)
    (h : GetPipelinesInOrder order fuel table = some r) :
    List.Perm r (table.map Prod.fst) := by
  have := resolveLoop_perm order horder fuel table [] [] 0 r h
  simpa using this

/-- Flattening stage blocks with nondecreasing stage indices yields an event
sequence with nondecreasing stage indices. -/
theorem stagedEvents_pairwise :
    ∀ (blocks : List (Stage × List Nat)),
      List.Pairwise (fun a b => a ≤ b) (blocks.map fun b => stageIdx b.1) →
      List.Pairwise (fun a b : REvent => stageIdx a.1 ≤ stageIdx b.1)
        (stagedEvents blocks) := by
  intro blocks
  induction blocks with
  | nil => intro _; simp [stagedEvents]
  | cons b bs ih =>
    intro hmono
    simp only [List.map_cons, List.pairwise_cons] at hmono
    unfold stagedEvents
    rw [List.flatMap_cons]
    refine List.pairwise_append.mpr ⟨?_, ih hmono.2, ?_⟩
    · refine List.pairwise_of_forall_mem_list ?_
      intro x hx y hy
      obtain ⟨kx, _, hex⟩ := List.mem_map.mp hx
      obtain ⟨ky, _, hey⟩ := List.mem_map.mp hy
      subst hex
      subst hey
      exact Nat.le_refl _
    · intro a ha c hc
      obtain ⟨ka, _, hea⟩ := List.mem_map.mp ha
      obtain ⟨b', hb', hcb⟩ := List.mem_flatMap.mp hc
      obtain ⟨kc, _, hec⟩ := List.mem_map.mp hcb
      subst hea
      subst hec
      exact hmono.1 (stageIdx b'.1) (List.mem_map.mpr ⟨b', hb', rfl⟩)

/-- C6: every event sequence RebuildState produces is ordered by the fixed
stage order — instances through primary command buffers — with each stage
fully drained before the next begins (the stage indices along the output are
nondecreasing), for any snapshot, fuel, and map-iteration orders. -/
theorem rebuildState_fixed_stage_order
    (oc og : Nat → List (Nat × Nat) → List (Nat × Nat)) (fuel : Nat)
    (s : VulkanState) (r : List REvent)
    (h : RebuildStateEvents oc og fuel s = some r) :
    List.Pairwise (fun a b : REvent => stageIdx a.1 ≤ stageIdx b.1) r := by
  unfold RebuildStateEvents at h
  cases hc : GetPipelinesInOrder oc fuel s.ComputePipelines with
  | none => rw [hc] at h; exact absurd h (by simp)
  | some cp =>
    cases hg : GetPipelinesInOrder og fuel s.GraphicsPipelines with
    | none => rw [hc, hg] at h; exact absurd h (by simp)
    | some gp =>
      rw [hc, hg] at h
      injection h with h
      subst h
      apply stagedEvents_pairwise
      have hmap : (stageBlocks s cp gp).map (fun b => stageIdx b.1) =
          [0, 1, 2, 3, 4, 5, 6, 7, 8, 9, 10, 11, 12, 13, 14, 15, 16, 17, 18, 19,
           20, 21, 22, 23, 24, 25, 26, 27, 28] := rfl
      rw [hmap]
      decide

/-- C6 witness: a snapshot with one instance, one buffer and one compute
pipeline rebuilds to the three events in stage order. -/
theorem rebuildState_fixed_stage_order_witness :
    List.Pairwise (fun a b : REvent => stageIdx a.1 ≤ stageIdx b.1)
      [(Stage.instances, 1), (Stage.buffers, 2), (Stage.computePipelines, 3)] :=
  rebuildState_fixed_stage_order seqOrder seqOrder 2 smallState
    [(Stage.instances, 1), (Stage.buffers, 2), (Stage.computePipelines, 3)] rfl

/-- Flattening pointwise-permuted stage blocks yields permuted event
sequences. -/
theorem stagedEvents_perm (blocks₁ blocks₂ : List (Stage × List Nat))
    (h : List.Forall₂ (fun a b => a.1 = b.1 ∧ List.Perm a.2 b.2) blocks₁ blocks₂) :
    List.Perm (stagedEvents blocks₁) (stagedEvents blocks₂) := by
  induction h with
  | nil => exact List.Perm.refl _
  | cons hab htail ih =>
    rename_i a b l₁ l₂
    unfold stagedEvents
    rw [List.flatMap_cons, List.flatMap_cons]
    refine List.Perm.append ?_ ih
    rw [hab.1]
    exact hab.2.map _

/-- C9 (amended): any two terminating runs of RebuildState on the same
snapshot — under possibly different admissible map-iteration orders — emit
permutations of one another: the same creation events, possibly reordered
within the pipeline stages. -/
theorem rebuildState_runs_perm
    (oc1 og1 oc2 og2 : Nat → List (Nat × Nat) → List (Nat × Nat))
    (fuel1 fuel2 : Nat) (s : VulkanState) (r1 r2 : List REvent)
    (h1 : ∀ t l, List.Perm (oc1 t l) l) (h2 : ∀ t l, List.Perm (og1 t l) l)
    (h3 : ∀ t l, List.Perm (oc2 t l) l) (h4 : ∀ t l, List.Perm (og2 t l) l)
    (e1 : RebuildStateEvents oc1 og1 fuel1 s = some r1)
    (e2 : RebuildStateEvents oc2 og2 fuel2 s = some r2) :
    List.Perm r1 r2 := by
  unfold RebuildStateEvents at e1 e2
  cases hc1 : GetPipelinesInOrder oc1 fuel1 s.ComputePipelines with
  | none => rw [hc1] at e1; exact absurd e1 (by simp)
  | some cp1 =>
    cases hg1 : GetPipelinesInOrder og1 fuel1 s.GraphicsPipelines with
    | none => rw [hc1, hg1] at e1; exact absurd e1 (by simp)
    | some gp1 =>
      cases hc2 : GetPipelinesInOrder oc2 fuel2 s.ComputePipelines with
      | none => rw [hc2] at e2; exact absurd e2 (by simp)
      | some cp2 =>
        cases hg2 : GetPipelinesInOrder og2 fuel2 s.GraphicsPipelines with
        | none => rw [hc2, hg2] at e2; exact absurd e2 (by simp)
        | some gp2 =>
          rw [hc1, hg1] at e1
          rw [hc2, hg2] at e2
          injection e1 with e1
          injection e2 with e2
          subst e1
          subst e2
          have hcp : List.Perm cp1 cp2 :=
            (getPipelinesInOrder_perm oc1 h1 fuel1 s.ComputePipelines cp1 hc1).trans
              (getPipelinesInOrder_perm oc2 h3 fuel2 s.ComputePipelines cp2 hc2).symm
          have hgp : List.Perm gp1 gp2 :=
            (getPipelinesInOrder_perm og1 h2 fuel1 s.GraphicsPipelines gp1 hg1).trans
              (getPipelinesInOrder_perm og2 h4 fuel2 s.GraphicsPipelines gp2 hg2).symm
          apply stagedEvents_perm
          unfold stageBlocks
          refine List.Forall₂.cons ⟨rfl, List.Perm.refl _⟩ ?_
          refine List.Forall₂.cons ⟨rfl, List.Perm.refl _⟩ ?_
          refine List.Forall₂.cons ⟨rfl, List.Perm.refl _⟩ ?_
          refine List.Forall₂.cons ⟨rfl, List.Perm.refl _⟩ ?_
          refine List.Forall₂.cons ⟨rfl, List.Perm.refl _⟩ ?_
          refine List.Forall₂.cons ⟨rfl, List.Perm.refl _⟩ ?_
          refine List.Forall₂.cons ⟨rfl, List.Perm.refl _⟩ ?_
          refine List.Forall₂.cons ⟨rfl, List.Perm.refl _⟩ ?_
          refine List.Forall₂.cons ⟨rfl, List.Perm.refl _⟩ ?_
          refine List.Forall₂.cons ⟨rfl, List.Perm.refl _⟩ ?_
          refine List.Forall₂.cons ⟨rfl, List.Perm.refl _⟩ ?_
          refine List.Forall₂.cons ⟨rfl, List.Perm.refl _⟩ ?_
          refine List.Forall₂.cons ⟨rfl, List.Perm.refl _⟩ ?_
          refine List.Forall₂.cons ⟨rfl, List.Perm.refl _⟩ ?_
          refine List.Forall₂.cons ⟨rfl, List.Perm.refl _⟩ ?_
          refine List.Forall₂.cons ⟨rfl, List.Perm.refl _⟩ ?_
          refine List.Forall₂.cons ⟨rfl, List.Perm.refl _⟩ ?_
          refine List.Forall₂.cons ⟨rfl, List.Perm.refl _⟩ ?_
          refine List.Forall₂.cons ⟨rfl, List.Perm.refl _⟩ ?_
          refine List.Forall₂.cons ⟨rfl, hcp⟩ ?_
          refine List.Forall₂.cons ⟨rfl, hgp⟩ ?_
          refine List.Forall₂.cons ⟨rfl, List.Perm.refl _⟩ ?_
          refine List.Forall₂.cons ⟨rfl, List.Perm.refl _⟩ ?_
          refine List.Forall₂.cons ⟨rfl, List.Perm.refl _⟩ ?_
          refine List.Forall₂.cons ⟨rfl, List.Perm.refl _⟩ ?_
          refine List.Forall₂.cons ⟨rfl, List.Perm.refl _⟩ ?_
          refine List.Forall₂.cons ⟨rfl, List.Perm.refl _⟩ ?_
          refine List.Forall₂.cons ⟨rfl, List.Perm.refl _⟩ ?_
          refine List.Forall₂.cons ⟨rfl, List.Perm.refl _⟩ ?_
          exact List.Forall₂.nil

/-- C9 counterexample: the same two-pipeline snapshot rebuilt under two
admissible map-iteration orders (insertion order and reversed) yields two
different event sequences — the rebuild is not a function of the snapshot
alone. -/
theorem rebuildState_iteration_order_sensitive :
    RebuildStateEvents seqOrder seqOrder 3 twoPipeState ≠
      RebuildStateEvents revOrder seqOrder 3 twoPipeState := by
  decide

/-- C9 witness: the two runs of the counterexample snapshot are nevertheless
permutations of each other. -/
theorem rebuildState_runs_perm_witness :
    List.Perm
      [((Stage.computePipelines : Stage), 1), (Stage.computePipelines, 2)]
      [((Stage.computePipelines : Stage), 2), (Stage.computePipelines, 1)] :=
  rebuildState_runs_perm seqOrder seqOrder revOrder seqOrder 3 3 twoPipeState
    [(Stage.computePipelines, 1), (Stage.computePipelines, 2)]
    [(Stage.computePipelines, 2), (Stage.computePipelines, 1)]
    (fun _ l => List.Perm.refl l) (fun _ l => List.Perm.refl l)
    (fun _ l => List.reverse_perm l) (fun _ l => List.Perm.refl l)
    rfl rfl

/-- C8: write appends the command — with the pending allocations attached as
observations — to the output sequence unconditionally; when the command's
Mutate step against the simulated new state fails, the only difference is a
logged warning.  A mutation failure never drops the command and never aborts
the rebuild. -/
theorem write_appends_despite_mutate_error (sb : StateBuilder) (cmd : Cmd) :
    (write sb cmd).cmds = sb.cmds ++
      [{ cmd with reads := cmd.reads ++ sb.readMemories,
                  writes := cmd.writes ++ sb.writeMemories }] ∧
    (cmd.mutateFails = true →
      (write sb cmd).logs = sb.logs ++ [LogEntry.warn]) := by
  refine ⟨rfl, ?_⟩
  intro h
  simp [write, h]

/-- C8 witness: a command whose mutate step fails is still appended, and the
failure surfaces only as a warning log entry. -/
theorem write_appends_despite_mutate_error_witness :
    (write (freshBuilder demoState) ⟨.vkUnmapMemory 7 1, true, [], []⟩).cmds =
      [⟨.vkUnmapMemory 7 1, true, [], []⟩] ∧
    (write (freshBuilder demoState) ⟨.vkUnmapMemory 7 1, true, [], []⟩).logs =
      [LogEntry.warn] := by
  have h := write_appends_despite_mutate_error (freshBuilder demoState)
    ⟨.vkUnmapMemory 7 1, true, [], []⟩
  exact ⟨h.1, h.2 rfl⟩

/-- C7 (amended): after every write the pending read and write lists are both
empty, and every AllocResult placed on the pending lists since the previous
emission is freed by that write exactly once (given the pending ids are
distinct and not yet freed, as the builder maintains). -/
theorem write_flushes_pending_exactly_once (sb : StateBuilder) (cmd : Cmd)
    (hnd : (sb.readMemories ++ sb.writeMemories).Nodup)
    (hzero : ∀ id ∈ sb.readMemories ++ sb.writeMemories, sb.freedIds.count id = 0) :
    (write sb cmd).readMemories = [] ∧ (write sb cmd).writeMemories = [] ∧
    ∀ id ∈ sb.readMemories ++ sb.writeMemories,
      (write sb cmd).freedIds.count id = 1 := by
  refine ⟨rfl, rfl, ?_⟩
  intro id hid
  show (sb.freedIds ++ sb.readMemories ++ sb.writeMemories).count id = 1
  have h0 := hzero id hid
  have h1 : (sb.readMemories ++ sb.writeMemories).count id = 1 :=
    List.count_eq_one_of_mem hnd hid
  rw [List.count_append] at h1
  rw [List.count_append, List.count_append]
  omega

/-- C7 witness: a builder with one pending read allocation flushes it with
the next write and frees it exactly once. -/
theorem write_flushes_pending_exactly_once_witness :
    (write (MustAllocReadData (freshBuilder demoState) 16).2
        ⟨.vkUnmapMemory 7 1, false, [], []⟩).readMemories = [] ∧
    (write (MustAllocReadData (freshBuilder demoState) 16).2
        ⟨.vkUnmapMemory 7 1, false, [], []⟩).writeMemories = [] ∧
    ∀ id ∈ (MustAllocReadData (freshBuilder demoState) 16).2.readMemories ++
        (MustAllocReadData (freshBuilder demoState) 16).2.writeMemories,
      (write (MustAllocReadData (freshBuilder demoState) 16).2
        ⟨.vkUnmapMemory 7 1, false, [], []⟩).freedIds.count id = 1 :=
  write_flushes_pending_exactly_once (MustAllocReadData (freshBuilder demoState) 16).2
    ⟨.vkUnmapMemory 7 1, false, [], []⟩ (by decide) (by decide)

set_option maxHeartbeats 2000000 in
/-- C7 counterexample: inside allocAndFillScratchBuffer the claim as stated
fails.  The operation trace scratchOpsDemo reproduces the function exactly
(first conjunct).  Between the VkBindBufferMemory emission (operation 7,
after which nextAlloc = 4) and the VkMapMemory emission (operation 10, one
further command) the function creates AllocResults 4 and 5 directly with
AllocDataOrPanic; after the VkMapMemory write both have been freed zero
times, not exactly once — they outlive that command and two more. -/
theorem scratch_staging_alloc_outlives_write :
    runOps (freshBuilder demoState) scratchOpsDemo =
      (allocAndFillScratchBuffer (freshBuilder demoState) demoDevice [9, 9, 9] []).2 ∧
    (runOps (freshBuilder demoState) (scratchOpsDemo.take 7)).nextAlloc = 4 ∧
    (runOps (freshBuilder demoState) (scratchOpsDemo.take 9)).nextAlloc = 6 ∧
    (runOps (freshBuilder demoState) (scratchOpsDemo.take 10)).cmds.length =
      (runOps (freshBuilder demoState) (scratchOpsDemo.take 7)).cmds.length + 1 ∧
    (runOps (freshBuilder demoState) (scratchOpsDemo.take 10)).freedIds.count 4 = 0 ∧
    (runOps (freshBuilder demoState) (scratchOpsDemo.take 10)).freedIds.count 5 = 0 := by
  refine ⟨by decide, by decide, by decide, by decide, by decide, by decide⟩

/-- GetScratchBufferMemoryIndex leaves the command list untouched. -/
theorem gsmi_cmds (sb : StateBuilder) (d : DeviceObject) :
    ((GetScratchBufferMemoryIndex sb d).2).cmds = sb.cmds := by
  unfold GetScratchBufferMemoryIndex
  split <;> (simp only []; split <;> rfl)

/-- GetScratchBufferMemoryIndex leaves the pending read list untouched. -/
theorem gsmi_readMemories (sb : StateBuilder) (d : DeviceObject) :
    ((GetScratchBufferMemoryIndex sb d).2).readMemories = sb.readMemories := by
  unfold GetScratchBufferMemoryIndex
  split <;> (simp only []; split <;> rfl)

/-- GetScratchBufferMemoryIndex leaves the pending write list untouched. -/
theorem gsmi_writeMemories (sb : StateBuilder) (d : DeviceObject) :
    ((GetScratchBufferMemoryIndex sb d).2).writeMemories = sb.writeMemories := by
  unfold GetScratchBufferMemoryIndex
  split <;> (simp only []; split <;> rfl)

/-- GetScratchBufferMemoryIndex leaves the allocator untouched. -/
theorem gsmi_nextAlloc (sb : StateBuilder) (d : DeviceObject) :
    ((GetScratchBufferMemoryIndex sb d).2).nextAlloc = sb.nextAlloc := by
  unfold GetScratchBufferMemoryIndex
  split <;> (simp only []; split <;> rfl)

/-- GetScratchBufferMemoryIndex leaves the address space untouched. -/
theorem gsmi_nextBase (sb : StateBuilder) (d : DeviceObject) :
    ((GetScratchBufferMemoryIndex sb d).2).nextBase = sb.nextBase := by
  unfold GetScratchBufferMemoryIndex
  split <;> (simp only []; split <;> rfl)

/-- GetScratchBufferMemoryIndex leaves the free log untouched. -/
theorem gsmi_freedIds (sb : StateBuilder) (d : DeviceObject) :
    ((GetScratchBufferMemoryIndex sb d).2).freedIds = sb.freedIds := by
  unfold GetScratchBufferMemoryIndex
  split <;> (simp only []; split <;> rfl)

/-- GetScratchBufferMemoryIndex leaves the interval set untouched. -/
theorem gsmi_memoryIntervals (sb : StateBuilder) (d : DeviceObject) :
    ((GetScratchBufferMemoryIndex sb d).2).memoryIntervals = sb.memoryIntervals := by
  unfold GetScratchBufferMemoryIndex
  split <;> (simp only []; split <;> rfl)

/-- GetScratchBufferMemoryIndex leaves the snapshot untouched. -/
theorem gsmi_s (sb : StateBuilder) (d : DeviceObject) :
    ((GetScratchBufferMemoryIndex sb d).2).s = sb.s := by
  unfold GetScratchBufferMemoryIndex
  split <;> (simp only []; split <;> rfl)

/-- Clearing the low 8 bits of a 64-bit value rounds it down to a multiple of
256. -/
theorem land_high_mask (x : Nat) (hx : x < 2 ^ 64) :
    x &&& (2 ^ 64 - 256) = 256 * (x / 256) := by
  apply Nat.eq_of_testBit_eq
  intro i
  rw [Nat.testBit_land]
  have hm : (2 : Nat) ^ 64 - 256 = (2 ^ 56 - 1) <<< 8 := by
    rw [Nat.shiftLeft_eq]
    norm_num
  have hr : 256 * (x / 256) = (x >>> 8) <<< 8 := by
    rw [Nat.shiftRight_eq_div_pow, Nat.shiftLeft_eq, Nat.mul_comm]
  rw [hm, hr, Nat.testBit_shiftLeft, Nat.testBit_shiftLeft, Nat.testBit_shiftRight,
    Nat.testBit_two_pow_sub_one]
  by_cases h8 : 8 ≤ i
  · have hidx : 8 + (i - 8) = i := by omega
    rw [hidx]
    have h1 : decide (i ≥ 8) = true := decide_eq_true h8
    rw [h1]
    by_cases h64 : i < 64
    · have h2 : decide (i - 8 < 56) = true := decide_eq_true (by omega)
      rw [h2]
      cases x.testBit i <;> simp
    · have h2 : decide (i - 8 < 56) = false := by
        simp only [decide_eq_false_iff_not]
        omega
      have hxf : x.testBit i = false :=
        Nat.testBit_lt_two_pow
          (lt_of_lt_of_le hx (Nat.pow_le_pow_right (by norm_num) (by omega)))
      rw [h2, hxf]
      simp
  · have h1 : decide (i ≥ 8) = false := by
      simp only [decide_eq_false_iff_not]
      omega
    rw [h1]
    simp

/-- C4 (amended): allocAndFillScratchBuffer emits exactly one VkAllocateMemory,
whose allocationSize is ((2*N + 255) & ^255) in uint64 arithmetic for a
payload of N bytes; when 2*N + 255 does not wrap, that value is twice the
payload rounded up to a 256-byte boundary.  (For N = 100 this is 256, not the
512 the specification lists.) -/
theorem scratch_allocation_size (sb : StateBuilder) (device : DeviceObject)
    (data : List Nat) (usages : List Nat) :
    allocationSizes ((allocAndFillScratchBuffer sb device data usages).2.cmds) =
      allocationSizes sb.cmds ++
        [((2 * data.length + 255) % U64MOD) &&& (U64MOD - 256)] ∧
    (2 * data.length + 255 < U64MOD →
      ((2 * data.length + 255) % U64MOD) &&& (U64MOD - 256) =
        256 * ((2 * data.length + 255) / 256)) := by
  constructor
  · simp [allocAndFillScratchBuffer, write, MustAllocReadData, MustAllocWriteData,
      allocData, freeAlloc, gsmi_cmds, gsmi_readMemories, gsmi_writeMemories,
      gsmi_nextAlloc, gsmi_nextBase, gsmi_freedIds, gsmi_memoryIntervals, gsmi_s,
      allocationSizes, List.filterMap_append, Nat.mod_add_mod]
  · intro hlt
    have hmod : (2 * data.length + 255) % U64MOD = 2 * data.length + 255 :=
      Nat.mod_eq_of_lt hlt
    rw [hmod]
    exact land_high_mask _ hlt

/-- C4 witness: a 100-byte payload.  The emitted allocation size is the
claimed formula value, which rounds 200 bytes up to 256. -/
theorem scratch_allocation_size_witness :
    allocationSizes ((allocAndFillScratchBuffer (freshBuilder demoState) demoDevice
        (List.replicate 100 (0 : Nat)) []).2.cmds) =
      allocationSizes (freshBuilder demoState).cmds ++
        [((2 * (List.replicate 100 (0 : Nat)).length + 255) % U64MOD) &&& (U64MOD - 256)] ∧
    ((2 * (List.replicate 100 (0 : Nat)).length + 255) % U64MOD) &&& (U64MOD - 256) =
      256 * ((2 * (List.replicate 100 (0 : Nat)).length + 255) / 256) :=
  ⟨(scratch_allocation_size (freshBuilder demoState) demoDevice
      (List.replicate 100 (0 : Nat)) []).1,
   (scratch_allocation_size (freshBuilder demoState) demoDevice
      (List.replicate 100 (0 : Nat)) []).2 (by decide)⟩

/-- C4 counterexample: for the 100-byte payload the emitted backing
allocation size is 256 — the claim's asserted value 512 is wrong, since
(2*100 + 255) & ^255 = 455 & ^255 = 256. -/
theorem scratch_payload100_size_256 :
    allocationSizes ((allocAndFillScratchBuffer (freshBuilder demoState) demoDevice
        (List.replicate 100 (0 : Nat)) []).2.cmds) = [256] ∧ (256 : Nat) ≠ 512 :=
  ⟨by decide, by decide⟩

/-- C10: createImage returns immediately on a swapchain image — the builder
is returned unchanged, so no commands are emitted, no priming happens, and
the command sequence and interval set are untouched. -/
theorem createImage_swapchain_noop (sb : StateBuilder) (img : ImageObject)
    (h : img.IsSwapchainImage = true) :
    createImage sb img = sb ∧
    (createImage sb img).cmds = sb.cmds ∧
    (createImage sb img).memoryIntervals = sb.memoryIntervals := by
  have heq : createImage sb img = sb := by
    unfold createImage
    simp [h]
  exact ⟨heq, by rw [heq], by rw [heq]⟩

/-- C10 witness: a concrete swapchain image leaves a fresh builder unchanged. -/
theorem createImage_swapchain_noop_witness :
    createImage (freshBuilder demoState) demoSwapchainImage = freshBuilder demoState ∧
    (createImage (freshBuilder demoState) demoSwapchainImage).cmds =
      (freshBuilder demoState).cmds ∧
    (createImage (freshBuilder demoState) demoSwapchainImage).memoryIntervals =
      (freshBuilder demoState).memoryIntervals :=
  createImage_swapchain_noop (freshBuilder demoState) demoSwapchainImage rfl

end StateRebuild
